import Mathlib

/-!
Verification development for the Device42 ↔ Nautobot one-way sync plugin.

The definitions below are shallow embeddings of the plugin functions named in
their doc comments (file and symbol).  Python dicts are embedded as
association lists or as functions to `Option`, Python lists as `List`,
machine strings as `String` compared by code points, and raised-and-caught
exceptions as explicit `Except`/`Option` values.  External collaborators
(the Django ORM backing store, the Device42 HTTP client transport) are
embedded as explicit state threaded through the functions.
-/

/- ============================================================ -/
/- Generic list machinery (code-point string order, sorting)    -/
/- ============================================================ -/

/-- Lexicographic comparison of character lists by code point.  This is the
order Python `sorted`/`list.sort` uses on `str` values. -/
def charListLe : List Char → List Char → Bool
  | [], _ => true
  | _ :: _, [] => false
  | a :: as, b :: bs => if a < b then true else if b < a then false else charListLe as bs

/-- Code-point order on strings, the order of Python `sorted` on `str`. -/
def strLeB (a b : String) : Bool := charListLe a.data b.data

/-- Insert an element into a list sorted by `le` (helper of `sortBy`). -/
def insBy (le : α → α → Bool) (x : α) : List α → List α
  | [] => [x]
  | y :: ys => if le x y then x :: y :: ys else y :: insBy le x ys

/-- Insertion sort by a comparison function.  Embeds Python `sorted(...)`:
on lists whose sort keys are pairwise distinct (the only way it is used
here, since the sorted names come from dict keys) any comparison sort
produces this same unique ordering. -/
def sortBy (le : α → α → Bool) : List α → List α
  | [] => []
  | x :: xs => insBy le x (sortBy le xs)

/-- Lookup in an association list embedding a Python dict. -/
def alookup (k : String) : List (String × α) → Option α
  | [] => none
  | (k2, v) :: rest => if k = k2 then some v else alookup k rest

/- ============================================================ -/
/- C1 / C6 / C10 : NautobotAdapter.sync_complete                -/
/- (nautobot_ssot_device42/diffsync/from_d42/nautobot.py)       -/
/- ============================================================ -/

/-- The keys of the `_objects_to_delete` dict of `NautobotAdapter`
(nautobot.py lines 39-53). -/
inductive Grouping
  | device
  | site
  | rack
  | manufacturer
  | device_type
  | ipaddr
  | vrf
  | cluster
  | port
  | subnet
  | vlan
  | provider
  | circuit
  deriving DecidableEq

/-- The fixed drain order of `sync_complete` (nautobot.py lines 106-120). -/
def deletionOrder : List Grouping :=
  [.ipaddr, .subnet, .vrf, .vlan, .circuit, .provider, .cluster, .port,
   .device, .device_type, .manufacturer, .rack, .site]

/-- Position of a grouping in `deletionOrder`. -/
def groupRank : Grouping → Nat
  | .ipaddr => 0
  | .subnet => 1
  | .vrf => 2
  | .vlan => 3
  | .circuit => 4
  | .provider => 5
  | .cluster => 6
  | .port => 7
  | .device => 8
  | .device_type => 9
  | .manufacturer => 10
  | .rack => 11
  | .site => 12

/-- A Nautobot ORM object queued for deletion.  `isProtected` embeds the
backing store raising `ProtectedError` on `.delete()` because live
references to the row remain. -/
structure NbObject where
  oid : Nat
  isProtected : Bool
  deriving DecidableEq

/-- State threaded through the deferred-deletion sweep: the
`_objects_to_delete` dict, the backing store rows, the ordered trace of
`.delete()` calls made, and the `job.log` messages for protected objects. -/
structure SweepState where
  queues : Grouping → List NbObject
  store : List NbObject
  attempts : List (Grouping × NbObject)
  logs : List (Grouping × NbObject)

/-- One `try: nautobot_object.delete() except ProtectedError: self.job.log(...)`
step of `sync_complete` (nautobot.py lines 122-125). -/
def tryDelete (s : SweepState) (g : Grouping) (o : NbObject) : SweepState :=
  let s2 := { s with attempts := s.attempts ++ [(g, o)] }
  if o.isProtected then
    { s2 with logs := s2.logs ++ [(g, o)] }
  else
    { s2 with store := s2.store.erase o }

/-- The inner `for nautobot_object in self._objects_to_delete[grouping]`
loop of `sync_complete` (nautobot.py lines 121-125). -/
def drainGroup (g : Grouping) : List NbObject → SweepState → SweepState
  | [], s => s
  | o :: rest, s => drainGroup g rest (tryDelete s g o)

/-- The outer `for grouping in (...)` loop of `sync_complete`
(nautobot.py lines 106-126): drain the grouping list then reset it to `[]`. -/
def syncCompleteLoop : List Grouping → SweepState → SweepState
  | [], s => s
  | g :: gs, s =>
      let s1 := drainGroup g (s.queues g) s
      let s2 := { s1 with queues := fun g2 => if g2 = g then [] else s1.queues g2 }
      syncCompleteLoop gs s2

/-- `NautobotAdapter.sync_complete` (nautobot.py lines 97-128), restricted to
its deferred-deletion sweep (the trailing `super().sync_complete` call only
delegates to the framework). -/
def sync_complete (s : SweepState) : SweepState :=
  syncCompleteLoop deletionOrder s

/- ============================================================ -/
/- C2 : CustomOrderingDiff.order_children_device                -/
/- (nautobot_ssot_device42/diff.py lines 15-32)                 -/
/- ============================================================ -/

/-- Action tag of a diffsync `DiffElement`; the Python attribute is one of
`"create"`, `"update"`, `"delete"` or `None`. -/
inductive DiffAction
  | create
  | update
  | delete
  deriving DecidableEq

/-- A child diff node as consumed by `order_children_device`: its action and
an opaque payload distinguishing nodes. -/
structure DiffChild where
  action : Option DiffAction
  payload : Nat
  deriving DecidableEq

/-- `child.action or "skip"` (diff.py line 22): the dict key under which a
child is grouped. -/
def actionKey (c : DiffChild) : String :=
  match c.action with
  | some .create => "create"
  | some .update => "update"
  | some .delete => "delete"
  | none => "skip"

/-- The names appended to `children_by_type[k]` by the grouping loop of
`order_children_device` (diff.py lines 21-23), in dict iteration order. -/
def namesWithAction (children : List (String × DiffChild)) (k : String) : List String :=
  (children.filter (fun p => actionKey p.2 == k)).map Prod.fst

/-- `CustomOrderingDiff.order_children_device` (diff.py lines 15-32): group
child names by action, sort each group alphabetically, concatenate in the
order delete, create, update, skip, and yield `children[name]` for each. -/
def order_children_device (children : List (String × DiffChild)) : List DiffChild :=
  let sorted_children :=
    sortBy strLeB (namesWithAction children "delete")
      ++ sortBy strLeB (namesWithAction children "create")
      ++ sortBy strLeB (namesWithAction children "update")
      ++ sortBy strLeB (namesWithAction children "skip")
  sorted_children.filterMap (fun n => alookup n children)

/-- Reference form used to state C2: the children with a given action key,
sorted by name as pairs. -/
def pairsWithActionSorted (children : List (String × DiffChild)) (k : String) :
    List (String × DiffChild) :=
  sortBy (fun a b => strLeB a.1 b.1) (children.filter (fun p => actionKey p.2 == k))

/- ============================================================ -/
/- C3 : tag-list normalization and order-independent comparison -/
/- ============================================================ -/

/-- `get_tag_strings` (nautobot_ssot_device42/utils/nautobot.py lines
156-170) restricted to its list-of-strings core: `Tag.names()` yields the
tag strings, which are sorted in place when more than one. -/
def get_tag_strings (l : List String) : List String :=
  if l.length > 1 then sortBy strLeB l else l

/-- The tag normalization of `Device42Adapter.load_buildings`
(diffsync/from_d42/device42.py lines 174-200): `record["tags"] if
record.get("tags") else []`, sorted in place when more than one. -/
def load_building_tags (tags : Option (List String)) : List String :=
  let t := match tags with
    | some l => if l.isEmpty then [] else l
    | none => []
  if t.length > 1 then sortBy strLeB t else t

/-- The `Building` DiffSync entity (diffsync/from_d42/models/dcim.py lines
42-58): identifier `name` and the declared `_attributes` tuple.  Latitude
and longitude are `Decimal` values, embedded as rationals; custom fields
are embedded as sorted key/value pairs. -/
structure BuildingEnt where
  name : String
  address : String
  latitude : Rat
  longitude : Rat
  contact_name : String
  contact_phone : String
  tags : List String
  custom_fields : List (String × String)
  deriving DecidableEq

/-- The declared `_attributes` tuple of `Building` (dcim.py line 46). -/
def buildingAttrNames : List String :=
  ["address", "latitude", "longitude", "contact_name", "contact_phone", "tags", "custom_fields"]

/-- Whether one declared Building attribute compares equal between two
entities.  Python compares the pydantic field values with `==`; for the
list-valued fields this is list equality of the stored (normalized)
lists. -/
def buildingAttrEq (src dst : BuildingEnt) : String → Bool
  | "address" => src.address == dst.address
  | "latitude" => src.latitude == dst.latitude
  | "longitude" => src.longitude == dst.longitude
  | "contact_name" => src.contact_name == dst.contact_name
  | "contact_phone" => src.contact_phone == dst.contact_phone
  | "tags" => src.tags == dst.tags
  | "custom_fields" => src.custom_fields == dst.custom_fields
  | _ => true

/-- Result of diffing one matched entity pair. -/
inductive DiffOutcome
  | skip
  | update (changed_attrs : List String)
  deriving DecidableEq

/-- Modelled from the spec: the per-entity attribute comparison of the Diff
Engine (spec §4.3), instantiated at the Building type.  The engine itself
lives in the external `diffsync` dependency, not under src/: keys present
in both stores are compared attribute-by-attribute over the declared
`_attributes`; if any differ the action is update with `changed_attrs`
exactly the differing ones, else skip. -/
def buildingDiff (src dst : BuildingEnt) : DiffOutcome :=
  match buildingAttrNames.filter (fun a => !(buildingAttrEq src dst a)) with
  | [] => .skip
  | changed => .update changed

/- ============================================================ -/
/- C4 : Building.update and Rack.update                         -/
/- (nautobot_ssot_device42/diffsync/from_d42/models/dcim.py)    -/
/- ============================================================ -/

/-- Plugin configuration settings read through `PLUGIN_CFG` (the
`constant.py` module of the plugin).  `none` embeds an absent key. -/
structure PluginCfg where
  facility_prepend : Option String
  role_prepend : Option String
  delete_on_sync : Bool
  default_device_role : String
  lifecycle_mgmt : Bool

/-- Character-list prefix test (helper of `strHasPref`). -/
def listIsPref : List Char → List Char → Bool
  | [], _ => true
  | _ :: _, [] => false
  | a :: as, b :: bs => a == b && listIsPref as bs

/-- Boolean prefix test on code points (model of the `re.search` against a
literal `facility_prepend`/`role_prepend` pattern, which the plugin docs
and tests use as a plain tag prefix such as `"sitecode-"`). -/
def strHasPref (pre s : String) : Bool := listIsPref pre.data s.data

/-- Helper of `get_facility`: first tag matching the prefix, stripped. -/
def facilityScan (pre : String) : List String → Option String
  | [] => none
  | t :: ts => if strHasPref pre t then some (t.drop pre.length) else facilityScan pre ts

/-- Model of `django.utils.text.slugify` restricted to what the proofs
need: a deterministic key renaming (lowercase, spaces to hyphens).  Only
determinism and injectivity on the concrete keys used matter here. -/
def slugifyM (s : String) : String :=
  String.mk (s.data.map (fun c => if c = ' ' then '-' else c.toLower))

/-- A custom-field entry as passed in `attrs["custom_fields"]`: the `key`
and `value` members are the only ones `update` reads. -/
structure CField where
  key : String
  value : String
  deriving DecidableEq

/-- `site.custom_field_data.update({slug: value})` for one entry: the
custom-field data dict embedded extensionally. -/
def cfStore (m : String → Option String) (k v : String) : String → Option String :=
  fun k2 => if k2 = k then some v else m k2

/-- The `for _cf in attrs["custom_fields"]` loop body writes
`custom_field_data[slugify(key)] = value` for each entry in order. -/
def applyCFs (m : String → Option String) (cfs : List CField) : String → Option String :=
  cfs.foldl (fun m2 c => cfStore m2 (slugifyM c.key) c.value) m

/-- `tags.add(tag)` on a Django many-to-many manager: inserts the tag when
absent, no-op when present. -/
def tagAdd (l : List String) (t : String) : List String :=
  if t ∈ l then l else l ++ [t]

/-- `for _tag in get_tags(attrs["tags"]): obj.tags.add(_tag)`; `get_tags`
(utils/nautobot.py lines 142-153) drops empty strings. -/
def addTags (l : List String) (ts : List String) : List String :=
  (ts.filter (fun t => t ≠ "")).foldl tagAdd l

/-- Modelled from the spec: `get_facility` of
`nautobot_ssot_device42/utils/device42.py` (file absent from src/; its
callers and unit tests are present).  Per spec §7 (MissingConfiguration is
escalated) and the unit test `test_get_facility` (tags
`["core-router", "nautobot-core-router", "sitecode-DFW"]` yield `"DFW"`):
with `facility_prepend` configured, return the first tag carrying that
prefix with the prefix stripped, else `none`; raise `MissingConfigSetting`
when the setting is absent. -/
def get_facility (cfg : PluginCfg) (tags : List String) : Except Unit (Option String) :=
  match cfg.facility_prepend with
  | none => .error ()
  | some pre => .ok (facilityScan pre tags)

/-- `str.upper()` on code points. -/
def strUpper (s : String) : String := String.mk (s.data.map Char.toUpper)

/-- `round(Decimal(x), 6)` embedded on rationals.  Only determinism in the
input is relevant to the claims proved about it. -/
def round6 (q : Rat) : Rat := ((round (q * 1000000) : ℤ) : Rat) / 1000000

/-- Python truthiness of `attrs.get(k)` for a string-valued attribute:
false when the key is absent or the value is the empty string. -/
def truthyS : Option String → Bool
  | some s => s != ""
  | none => false

/-- Python truthiness of `attrs.get(k)` for a numeric attribute: false when
the key is absent or the value is zero. -/
def truthyQ : Option Rat → Bool
  | some q => q != 0
  | none => false

/-- Python truthiness of `attrs.get(k)` for an integer attribute. -/
def truthyZ : Option Int → Bool
  | some n => n != 0
  | none => false

/-- Python truthiness of `attrs.get(k)` for a list-valued attribute: false
when the key is absent or the list is empty. -/
def truthyL : Option (List α) → Bool
  | some l => !l.isEmpty
  | none => false

/-- `nautobot.core.settings_funcs.is_truthy` restricted to the string
values that reach it here (`numbering_start_from_bottom` is `"yes"` or
`"no"`): case-insensitive membership in the usual truthy spellings. -/
def is_truthy (s : String) : Bool :=
  (["true", "t", "yes", "y", "1", "on"] : List String).contains
    (String.mk (s.data.map Char.toLower))

/-- The Nautobot `Site` row mutated by `Building.update` (dcim.py lines
92-122): the fields that method reads or writes.  `custom_field_data` is
the JSON dict embedded extensionally; `tags` is the many-to-many tag set. -/
structure SiteRec where
  physical_address : String
  latitude : Rat
  longitude : Rat
  contact_name : String
  contact_phone : String
  facility : Option String
  tags : List String
  custom_field_data : String → Option String

/-- The `attrs` dict passed to `Building.update`: `none` embeds an absent
key (diffsync only passes the changed attributes). -/
structure BuildingAttrsU where
  address : Option String
  latitude : Option Rat
  longitude : Option Rat
  contact_name : Option String
  contact_phone : Option String
  tags : Option (List String)
  custom_fields : Option (List CField)

/-- `if attrs.get("address"): _site.physical_address = attrs["address"]`. -/
def updAddress (attrs : BuildingAttrsU) (s : SiteRec) : SiteRec :=
  if truthyS attrs.address then { s with physical_address := attrs.address.getD "" } else s

/-- `if attrs.get("latitude"): _site.latitude = round(Decimal(...), 6)`. -/
def updLatitude (attrs : BuildingAttrsU) (s : SiteRec) : SiteRec :=
  if truthyQ attrs.latitude then { s with latitude := round6 (attrs.latitude.getD 0) } else s

/-- `if attrs.get("longitude"): _site.longitude = round(Decimal(...), 6)`. -/
def updLongitude (attrs : BuildingAttrsU) (s : SiteRec) : SiteRec :=
  if truthyQ attrs.longitude then { s with longitude := round6 (attrs.longitude.getD 0) } else s

/-- `if attrs.get("contact_name"): _site.contact_name = ...`. -/
def updContactName (attrs : BuildingAttrsU) (s : SiteRec) : SiteRec :=
  if truthyS attrs.contact_name then { s with contact_name := attrs.contact_name.getD "" } else s

/-- `if attrs.get("contact_phone"): _site.contact_phone = ...`. -/
def updContactPhone (attrs : BuildingAttrsU) (s : SiteRec) : SiteRec :=
  if truthyS attrs.contact_phone then { s with contact_phone := attrs.contact_phone.getD "" } else s

/-- The `if attrs.get("tags"):` block of `Building.update` (dcim.py lines
107-112): add every tag, then look up the facility from the tags and, when
one is found, store its uppercased value.  `get_facility` raises
`MissingConfigSetting` when `facility_prepend` is absent. -/
def updTagsFacility (cfg : PluginCfg) (attrs : BuildingAttrsU) (s : SiteRec) :
    Except Unit SiteRec :=
  if truthyL attrs.tags then do
    let ts := attrs.tags.getD []
    let s2 := { s with tags := addTags s.tags ts }
    let fac ← get_facility cfg ts
    match fac with
    | some f => pure (if f != "" then { s2 with facility := some (strUpper f) } else s2)
    | none => pure s2
  else pure s

/-- The `if attrs.get("custom_fields"):` block of `Building.update`: write
`custom_field_data[slugify(key)] = value` for each entry.  (The global
`CustomField` definition registry touched by `get_or_create` is not part
of the Site row state.) -/
def updCFData (attrs : BuildingAttrsU) (s : SiteRec) : SiteRec :=
  if truthyL attrs.custom_fields then
    { s with custom_field_data := applyCFs s.custom_field_data (attrs.custom_fields.getD []) }
  else s

/-- `Building.update` (dcim.py lines 92-122): the guarded field assignments
in source order, ending in `validated_save` (persistence of the row state
itself).  The only raising path is `get_facility` on a missing
`facility_prepend` setting. -/
def Building_update (cfg : PluginCfg) (attrs : BuildingAttrsU) (s : SiteRec) :
    Except Unit SiteRec := do
  let s1 := updAddress attrs s
  let s2 := updLatitude attrs s1
  let s3 := updLongitude attrs s2
  let s4 := updContactName attrs s3
  let s5 := updContactPhone attrs s4
  let s6 ← updTagsFacility cfg attrs s5
  pure (updCFData attrs s6)

/-- The Nautobot `Rack` row mutated by `Rack.update` (dcim.py lines
252-273): the fields that method reads or writes. -/
structure RackRec where
  u_height : Int
  desc_units : Bool
  tags : List String
  custom_field_data : String → Option String

/-- The `attrs` dict passed to `Rack.update`. -/
structure RackAttrsU where
  height : Option Int
  numbering_start_from_bottom : Option String
  tags : Option (List String)
  custom_fields : Option (List CField)

/-- `Rack.update` (dcim.py lines 252-273): guarded assignments of
`u_height`, `desc_units = not is_truthy(...)`, tag adds and custom-field
writes, in source order, ending in `validated_save`. -/
def Rack_update (attrs : RackAttrsU) (r : RackRec) : RackRec :=
  let r1 := if truthyZ attrs.height then { r with u_height := attrs.height.getD 0 } else r
  let r2 :=
    if truthyS attrs.numbering_start_from_bottom then
      { r1 with desc_units := !(is_truthy (attrs.numbering_start_from_bottom.getD "")) }
    else r1
  let r3 := if truthyL attrs.tags then { r2 with tags := addTags r2.tags (attrs.tags.getD []) } else r2
  if truthyL attrs.custom_fields then
    { r3 with custom_field_data := applyCFs r3.custom_field_data (attrs.custom_fields.getD []) }
  else r3

/- ============================================================ -/
/- C5 : Device.create                                           -/
/- (nautobot_ssot_device42/diffsync/from_d42/models/dcim.py)    -/
/- ============================================================ -/

/-- `s[:n]` on code points. -/
def strTake (s : String) (n : Nat) : String := String.mk (s.data.take n)

/-- `s.lower()` on code points. -/
def strLower (s : String) : String := String.mk (s.data.map Char.toLower)

/-- A Nautobot `Site` row as read by `Device.create`. -/
structure SiteObj where
  name : String
  slug : String
  deriving DecidableEq

/-- A Nautobot `Rack` row as read by `Device.create`: name, rack-group name
and containing site. -/
structure RackObj where
  name : String
  group : String
  site : SiteObj
  deriving DecidableEq

/-- A Nautobot `Device` row with the fields `Device.create` writes. -/
structure DevObj where
  name : String
  status : String
  site_slug : String
  devtype : String
  role : String
  serial : String
  rack : Option String
  rack_group : Option String
  position : Option Int
  face : String
  platform : Option String
  cluster_host : Option String
  vc_position : Option Int
  tags : List String
  custom_field_data : List (String × String)
  deriving DecidableEq

/-- The Nautobot backing store as touched by `Device.create`, together with
the adapter maps and `objects_to_create` queues of
`utils/nautobot.py` (`verify_device_role` lines 31-51, `verify_platform`
lines 54-88): looked-up rows, the role/platform maps, and the deferred
bulk-creation queues the helpers append to. -/
structure NbDB where
  sites : List SiteObj
  racks : List RackObj
  device_types : List String
  devices : List DevObj
  virtual_chassis : List (String × Option String)
  deviceroles : List String
  platforms : List String
  objects_to_create_roles : List String
  objects_to_create_platforms : List String
  deriving DecidableEq

/-- `ids` dict of `Device.create`: the single `name` identifier. -/
structure DevIds where
  name : String
  deriving DecidableEq

/-- `attrs` dict of `Device.create`; `none` embeds an absent key.
`in_service` and `hardware` are accessed unconditionally in the source
(`attrs["..."]`), hence not optional. -/
structure DevAttrs where
  in_service : Bool
  hardware : String
  building : Option String
  room : Option String
  rack : Option String
  rack_position : Option Int
  rack_orientation : Option String
  os : Option String
  os_version : Option String
  serial_no : Option String
  tags : Option (List String)
  cluster_host : Option String
  master_device : Bool
  custom_fields : Option (List CField)
  deriving DecidableEq

/-- Exceptions that can escape the embedded hooks: the
`MissingConfigSetting` of the role helper and Django `ValidationError`
from `validated_save`. -/
inductive PyErr
  | missingConfig
  | validationError
  deriving DecidableEq

/-- `NautobotRack.objects.get(name=n, group__name=g)`: `none` embeds
`Rack.DoesNotExist`. -/
def rackFind (db : NbDB) (n g : String) : Option RackObj :=
  db.racks.find? (fun r => r.name == n && r.group == g)

/-- `NautobotSite.objects.get(slug=sl)`: `none` embeds `Site.DoesNotExist`. -/
def siteFindBySlug (db : NbDB) (sl : String) : Option SiteObj :=
  db.sites.find? (fun s => s.slug == sl)

/-- The `if attrs.get("building"):` tail of `Device._get_site` (dcim.py
lines 592-604): site lookup by slug with debug logging; `return False`
when no building is present.  `False` and the implicit `None` are both
embedded as `none` (the caller only tests falsiness). -/
def getSiteByBuilding (debug : Bool) (db : NbDB) (attrs : DevAttrs) (ls : List String) :
    Option SiteObj × List String :=
  if truthyS attrs.building then
    match siteFindBySlug db (attrs.building.getD "") with
    | some s => (some s, ls)
    | none => (none, ls ++ (if debug then ["debug: unable to find Site by slug"] else []))
  else
    (none, ls ++ (if debug then ["debug: missing Building or Customer"] else []))

/-- `Device._get_site` (dcim.py lines 581-604): resolve the Site first
through the rack and room, then through the building slug. -/
def Device_get_site (debug : Bool) (db : NbDB) (attrs : DevAttrs) :
    Option SiteObj × List String :=
  if truthyS attrs.rack && truthyS attrs.room then
    match rackFind db (attrs.rack.getD "") (attrs.room.getD "") with
    | some r => (some r.site, [])
    | none =>
        getSiteByBuilding debug db attrs
          (if debug then ["debug: unable to find Site by Rack/Room"] else [])
  else
    getSiteByBuilding debug db attrs []

/-- Modelled from the spec: `find_device_role_from_tags` of
`nautobot_ssot_device42/utils/device42.py` (file absent from src/).  Its
earlier in-src generation (nautobot_device42_sync/diffsync/d42utils.py
lines 117-133) and the unit test `test_find_device_role_from_tags` pin the
behavior: raise `MissingConfigSetting` when `role_prepend` is not
configured, else return the first tag carrying that prefix with the prefix
stripped, defaulting to the configured default device role. -/
def find_device_role_from_tags (cfg : PluginCfg) (tag_list : List String) :
    Except PyErr String :=
  match cfg.role_prepend with
  | none => .error .missingConfig
  | some pre =>
      match facilityScan pre tag_list with
      | some role => .ok role
      | none => .ok cfg.default_device_role

/-- `verify_device_role` (utils/nautobot.py lines 31-51): look the slug up
in the adapter role map; when absent, construct the `DeviceRole` and
append it to `objects_to_create["deviceroles"]` and to the map.  Returns
the role reference (embedded as the slug). -/
def verify_device_role (db : NbDB) (role_name : String) : NbDB × String :=
  if db.deviceroles.contains (slugifyM role_name) then (db, slugifyM role_name)
  else
    ({ db with
        deviceroles := db.deviceroles ++ [slugifyM role_name],
        objects_to_create_roles := db.objects_to_create_roles ++ [role_name] },
      slugifyM role_name)

/-- `verify_platform` (utils/nautobot.py lines 54-88), restricted to its
map-or-queue skeleton: look the platform slug up, else append the new
`Platform` to `objects_to_create["platforms"]`.  The PYATS/NAPALM name
remappings are embedded as the identity on the slugified name (they only
rename; no branch of the claims depends on which name is produced). -/
def verify_platform (db : NbDB) (platform_name : String) : NbDB × String :=
  if db.platforms.contains (slugifyM platform_name) then (db, slugifyM platform_name)
  else
    ({ db with
        platforms := db.platforms ++ [slugifyM platform_name],
        objects_to_create_platforms := db.objects_to_create_platforms ++ [platform_name] },
      slugifyM platform_name)

/-- Accumulator for the digit parser of the position regex. -/
def digitsValAux : List Char → Nat → Nat
  | c :: cs, acc => if c.isDigit then digitsValAux cs (acc * 10 + (c.toNat - 48)) else acc
  | [], acc => acc

/-- Leading decimal digits of a character list, as a number. -/
def digitsVal : List Char → Option Nat
  | [] => none
  | c :: cs =>
      if c.isDigit then
        some ((digitsValAux (c :: cs) 0))
      else none

/-- Match the tail of the pattern `[sS]witch\s?(\d+)` (resp. node) at the
current position: the keyword, an optional space, then digits. -/
def matchKeyword : List Char → List Char → Option Nat
  | [], _ => none
  | cs, [] =>
      match cs with
      | ' ' :: rest => digitsVal rest
      | rest => digitsVal rest
  | c :: cs, k :: ks => if c.toLower = k then matchKeyword cs ks else none

/-- `re.search(r".+-\s([sS]witch)\s?(?P<pos>\d+)", name)` (and the `node`
variant), embedded on code points: find `-` + space + keyword + optional
space + digits, with at least one character before the `-`. -/
def scanDashKeyword (kw : List Char) : List Char → Option Nat
  | [] => none
  | [_] => none
  | a :: b :: rest =>
      if a ≠ '-' && b = '-' then
        match rest with
        | ' ' :: tl =>
            match matchKeyword tl kw with
            | some n => some n
            | none => scanDashKeyword kw (b :: rest)
        | _ => scanDashKeyword kw (b :: rest)
      else scanDashKeyword kw (b :: rest)

/-- The virtual-chassis position computed in the `cluster_host` branch of
`Device.create` (dcim.py lines 671-685): switch/node name matching, else
one past the member count. -/
def vcPositionOf (db : NbDB) (cluster_host name : String) : Nat :=
  let switch_pos := scanDashKeyword ['s', 'w', 'i', 't', 'c', 'h'] name.data
  let node_pos := scanDashKeyword ['n', 'o', 'd', 'e'] name.data
  if switch_pos.isSome || node_pos.isSome then
    match node_pos with
    | some n => n + 1
    | none => switch_pos.getD 1
  else
    (db.devices.filter (fun d => d.cluster_host == some cluster_host)).length + 1

/-- Custom-field write on the list-backed JSON dict of a `Device` row:
replace in place, else append. -/
def cfStoreL : List (String × String) → String → String → List (String × String)
  | [], k, v => [(k, v)]
  | (k2, v2) :: rest, k, v =>
      if k2 = k then (k, v) :: rest else (k2, v2) :: cfStoreL rest k v

/-- The custom-field loop of `Device.create` over the list-backed dict. -/
def applyCFsL (m : List (String × String)) (cfs : List CField) : List (String × String) :=
  cfs.foldl (fun m2 c => cfStoreL m2 (slugifyM c.key) c.value) m

/-- Result of `Device.create`: the returned model (or `None`), the backing
store after the call, and the log messages emitted. -/
structure CreateOut where
  result : Option DevObj
  db : NbDB
  logs : List String
  deriving DecidableEq

/-- Errors internal to the `try:` block of `Device.create`:
`Rack.DoesNotExist` (caught by the trailing `except`) and
`ValidationError` from `validated_save` (not caught there). -/
inductive InnerErr
  | rackMissing
  | validation
  deriving DecidableEq

/-- The `if attrs.get("rack"):` branch of `Device.create` (dcim.py lines
634-647): when exactly one device already holds the rack position, unassign
it (and save it); otherwise look the rack up (raising `Rack.DoesNotExist`
into the outer `except`) and assign rack, position and face. -/
def Device_create_rack_branch (db : NbDB) (attrs : DevAttrs) (dev : DevObj) :
    Except InnerErr (DevObj × NbDB) :=
  if truthyS attrs.rack then
    let devs := db.devices.filter (fun d =>
      d.rack == attrs.rack && d.rack_group == attrs.room &&
        d.position == attrs.rack_position && some d.face == attrs.rack_orientation)
    match devs with
    | [old] =>
        .ok (dev,
          { db with
              devices := db.devices.map (fun d => if d == old then { d with position := none } else d) })
    | _ =>
        match rackFind db (attrs.rack.getD "") (attrs.room.getD "") with
        | none => .error .rackMissing
        | some rk =>
            .ok ({ dev with
                    rack := some rk.name,
                    rack_group := some rk.group,
                    position :=
                      (match attrs.rack_position with
                        | some p => if p != 0 then some p else none
                        | none => none),
                    face :=
                      (if truthyS attrs.rack_orientation then attrs.rack_orientation.getD ""
                       else "front") },
              db)
  else .ok (dev, db)

/-- The `if attrs.get("cluster_host"):` branch of `Device.create` (dcim.py
lines 662-691): attach the device to the virtual chassis, either as master
(position 1, chassis master updated; the intermediate `validated_save`
calls of this path are embedded as succeeding) or at the computed member
position; a missing chassis is logged under debug and skipped. -/
def Device_create_vc_branch (db : NbDB) (ids : DevIds) (attrs : DevAttrs) (dev : DevObj)
    (debug : Bool) : DevObj × NbDB × List String :=
  if truthyS attrs.cluster_host then
    let ch := attrs.cluster_host.getD ""
    match db.virtual_chassis.find? (fun v => v.1 == ch) with
    | none => (dev, db, if debug then ["debug: unable to find VC"] else [])
    | some _ =>
        let dev2 := { dev with cluster_host := some ch }
        if attrs.master_device then
          ({ dev2 with vc_position := some 1 },
            { db with
                virtual_chassis :=
                  db.virtual_chassis.map (fun v => if v.1 == ch then (v.1, some dev.name) else v) },
            [])
        else
          ({ dev2 with vc_position := some ((vcPositionOf db ch ids.name : Int) + 1) }, db, [])
  else (dev, db, [])

/-- `Device.create` (dcim.py lines 605-715).  `debug` is `diffsync.job.debug`;
`save1Fails`/`save2Fails` embed the backing store raising `ValidationError`
at the two `new_device.validated_save()` call sites (the first is not
wrapped, so it propagates; the second is wrapped and yields `None`).  The
Device Lifecycle relationship tables written under `lifecycle_mgmt` are
outside the embedded store.  Returns the created model or `None`, the
store after the call, and the log messages. -/
def Device_create (cfg : PluginCfg) (debug : Bool) (db0 : NbDB) (ids : DevIds)
    (attrs : DevAttrs) (save1Fails save2Fails : Bool) : Except PyErr CreateOut := do
  let statusName := if attrs.in_service then "Active" else "Offline"
  let logs0 := if debug then ["debug: creating device"] else []
  let roleName ←
    (if truthyL attrs.tags then find_device_role_from_tags cfg (attrs.tags.getD [])
     else .ok cfg.default_device_role)
  let (db1, roleSlug) := verify_device_role db0 roleName
  if !(db1.device_types.contains attrs.hardware) then
    .ok { result := none, db := db1,
          logs := logs0 ++ (if debug then ["debug: unable to find matching DeviceType"] else []) }
  else
    let siteRes := Device_get_site debug db1 attrs
    match siteRes.1 with
    | none =>
        .ok { result := none, db := db1,
              logs := logs0 ++ siteRes.2 ++ ["debug: unable to determine Site"] }
    | some site =>
        let dev0 : DevObj :=
          { name := strTake ids.name 64, status := statusName, site_slug := site.slug,
            devtype := attrs.hardware, role := roleSlug,
            serial := if truthyS attrs.serial_no then attrs.serial_no.getD "" else "",
            rack := none, rack_group := none, position := none, face := "",
            platform := none, cluster_host := none, vc_position := none,
            tags := [], custom_field_data := [] }
        match Device_create_rack_branch db1 attrs dev0 with
        | .error _ =>
            .ok { result := none, db := db1,
                  logs := logs0 ++ siteRes.2
                    ++ (if debug then ["debug: unable to find matching Rack"] else []) }
        | .ok (dev1, db2) =>
            let pl :=
              if truthyS attrs.os then
                let vp := verify_platform db2 (attrs.os.getD "")
                (vp.1, { dev1 with platform := some vp.2 })
              else (db2, dev1)
            let db3 := pl.1
            let dev2 := pl.2
            if save1Fails then .error .validationError
            else
              let db4 := { db3 with devices := db3.devices ++ [dev2] }
              let cfBase := attrs.custom_fields.getD []
              let cfList :=
                if truthyS attrs.os_version && !(cfg.lifecycle_mgmt && truthyS attrs.os) then
                  cfBase ++ [{ key := "OS Version", value := attrs.os_version.getD "" }]
                else cfBase
              let vc := Device_create_vc_branch db4 ids attrs dev2 debug
              let dev3 := vc.1
              let db5 := vc.2.1
              let logsV := vc.2.2
              let dev4 :=
                if truthyL attrs.tags then { dev3 with tags := addTags dev3.tags (attrs.tags.getD []) }
                else dev3
              let dev5 :=
                if !cfList.isEmpty then
                  { dev4 with custom_field_data := applyCFsL dev4.custom_field_data cfList }
                else dev4
              if save2Fails then
                .ok { result := none, db := db5,
                      logs := logs0 ++ siteRes.2 ++ logsV
                        ++ (if debug then ["debug: validation error creating device"] else []) }
              else
                .ok { result := some dev5,
                      db := { db5 with
                                devices := db5.devices.map (fun d => if d == dev2 then dev5 else d) },
                      logs := logs0 ++ siteRes.2 ++ logsV }

/- ============================================================ -/
/- C7 / C8 : Device42API.api_call and merge_offset_dicts        -/
/- (nautobot_device42_sync/diffsync/d42utils.py)                -/
/- ============================================================ -/

/-- A JSON value as handled by `merge_offset_dicts`: the record lists and
the scalar metadata (`total_count`, `offset`, `limit`, strings, ...).
Record entries are embedded as `Nat` identifiers; scalars as integers
(strings and other scalars are only copied, never computed with, so an
integer coding loses nothing). -/
inductive JVal
  | vlist (l : List Nat)
  | vscalar (n : Int)
  deriving DecidableEq

/-- A JSON object (Python dict) as an association list in key order. -/
abbrev JDict := List (String × JVal)

/-- `orig_dict[key] + value` for one key of `merge_offset_dicts`: list
values concatenate; a non-list `value` overwrites; adding a list to a
non-list raises `TypeError`. -/
def mergeVal (origVal newVal : JVal) : Except Unit JVal :=
  match newVal with
  | .vlist l =>
      match origVal with
      | .vlist lo => .ok (.vlist (lo ++ l))
      | .vscalar _ => .error ()
  | .vscalar n => .ok (.vscalar n)

/-- `merge_offset_dicts` (d42utils.py lines 26-43): iterate the keys of
`offset_dict` in order; keys also present in `orig_dict` are merged into
the output, all other keys are dropped. -/
def merge_offset_dicts (orig : JDict) : JDict → Except Unit JDict
  | [] => .ok []
  | (k, v) :: rest =>
      match alookup k orig with
      | none => merge_offset_dicts orig rest
      | some ov => do
          let mv ← mergeVal ov v
          let tail ← merge_offset_dicts orig rest
          .ok ((k, mv) :: tail)

/-- `d.get(k)` restricted to an integer scalar; `none` when the key is
absent or the value is a list (the loop condition then raises
`TypeError`, embedded as an error by `loopCond`). -/
def scalarOf (d : JDict) (k : String) : Option Int :=
  match alookup k d with
  | some (.vscalar n) => some n
  | _ => none

/-- The `while (return_data.get("offset") + return_data.get("limit")) <
return_data.get("total_count")` condition (d42utils.py line 216):
evaluates the comparison when all three fields are integer scalars, else
raises (`None`/list operands yield `TypeError`; the corner where all three
fields are lists, which Python would compare elementwise, is embedded as
the same error — no claim depends on list-valued paging metadata). -/
def loopCond (d : JDict) : Except Unit Bool :=
  match scalarOf d "offset", scalarOf d "limit", scalarOf d "total_count" with
  | some o, some l, some t => .ok (o + l < t)
  | _, _, _ => .error ()

/-- Python truthiness of `return_data.get("total_count")`. -/
def truthyJ : Option JVal → Bool
  | some (.vlist l) => !l.isEmpty
  | some (.vscalar n) => n != 0
  | none => false

/-- `return_data.pop("offset", None)`. -/
def eraseKey (k : String) : JDict → JDict
  | [] => []
  | (k2, v) :: rest => if k2 = k then rest else (k2, v) :: eraseKey k rest

/-- Observable outcome of the pagination `while` loop of `api_call`:
the final data or the propagated exception, the number of page requests
made, the successfully fetched pages in fetch order, and whether the
`counter > 10000` runaway break was taken (which is also the event logged
by the two `print` calls at d42utils.py lines 242-244). -/
structure LoopOut where
  out : Except Unit JDict
  iters : Nat
  pages : List JDict
  runaway : Bool

/-- The pagination `while` loop of `api_call` (d42utils.py lines 216-246).
`fetch o` is the follow-up HTTP request at `params["offset"] = o`
(`.error` embeds `raise_for_status` raising on a non-2xx response, which
this loop does not catch).  `fuel` is `10000 - counter` for the Python
counter value before the `counter += 1` of the iteration: the
`if counter > 10000: break` of the source is exactly `fuel = 0` here, so
the recursion is structural on `fuel`. -/
def api_loopF (fetch : Int → Except Unit JDict) : Nat → JDict → LoopOut
  | fuel, d =>
    match loopCond d with
    | .error _ => { out := .error (), iters := 0, pages := [], runaway := false }
    | .ok false => { out := .ok d, iters := 0, pages := [], runaway := false }
    | .ok true =>
        let o := (scalarOf d "offset").getD 0
        let l := (scalarOf d "limit").getD 0
        match fetch (o + l) with
        | .error _ => { out := .error (), iters := 1, pages := [], runaway := false }
        | .ok page =>
            match merge_offset_dicts d page with
            | .error _ => { out := .error (), iters := 1, pages := [page], runaway := false }
            | .ok d2 =>
                match fuel with
                | 0 => { out := .ok d2, iters := 1, pages := [page], runaway := true }
                | fuel2 + 1 =>
                    let r := api_loopF fetch fuel2 d2
                    { out := r.out, iters := r.iters + 1, pages := page :: r.pages,
                      runaway := r.runaway }

/-- The pagination loop in terms of the Python `counter` variable (the
`counter = 0` initialization is at d42utils.py line 212). -/
def api_loop (fetch : Int → Except Unit JDict) (counter : Nat) (d : JDict) : LoopOut :=
  api_loopF fetch (10000 - counter) d

/-- Observable outcome of `api_call`: `.ok none` embeds `return False`
(HTTP error on the first request), `.ok (some d)` a returned dict,
`.error` a propagated exception; plus the loop observables. -/
structure ApiOut where
  res : Except Unit (Option JDict)
  iters : Nat
  pages : List JDict
  runaway : Bool

/-- `Device42API.api_call` (d42utils.py lines 168-248) from the first
response onward: `first = none` embeds `raise_for_status` failing on the
initial request (caught: `return False`); otherwise run the pagination
loop when `total_count` is truthy, and `pop("offset")` when any paginated
iteration ran. -/
def api_call (first : Option JDict) (fetch : Int → Except Unit JDict) : ApiOut :=
  match first with
  | none => { res := .ok none, iters := 0, pages := [], runaway := false }
  | some d0 =>
      if truthyJ (alookup "total_count" d0) then
        let r := api_loop fetch 0 d0
        match r.out with
        | .error _ => { res := .error (), iters := r.iters, pages := r.pages, runaway := r.runaway }
        | .ok d =>
            { res := .ok (some (if r.iters > 0 then eraseKey "offset" d else d)),
              iters := r.iters, pages := r.pages, runaway := r.runaway }
      else { res := .ok (some d0), iters := 0, pages := [], runaway := false }

/- ============================================================ -/
/- Remaining proof-support definitions                          -/
/- ============================================================ -/

/-- Modelled from the spec: the Sync Executor treatment of a create hook
result (spec §4.5 step 3 and failure semantics; the executor lives in the
external `diffsync` dependency): a returned model is an applied node, a
`None` result is a skip, not a failure. -/
inductive NodeOutcome
  | applied
  | skipped
  deriving DecidableEq

/-- Modelled from the spec: classify a create hook result (spec §4.5). -/
def execCreateNode (res : Option DevObj) : NodeOutcome :=
  match res with
  | some _ => .applied
  | none => .skipped

/-- The last value written for slug key `k` by a custom-field list
(reference form used to reason about `applyCFs`). -/
def cfLast (cfs : List CField) (k : String) : Option String :=
  match cfs with
  | [] => none
  | c :: rest =>
      match cfLast rest k with
      | some v => some v
      | none => if slugifyM c.key = k then some c.value else none

/-- The record list held by a JSON value, empty for scalars (reference
form used to state C7). -/
def vlOf : Option JVal → List Nat
  | some (.vlist l) => l
  | _ => []

/-- State visible to a DCIM `delete` hook: the adapter-level
`objects_to_delete` deferred-deletion dict, the set of diffsync model uuids
flagged by `super().delete()`, and the `job.log_warning` messages. -/
structure DelHookState where
  objects_to_delete : Grouping → List NbObject
  superDeleted : List Nat
  logs : List String

/-- `Building.delete` (dcim.py lines 124-137): gated on
`PLUGIN_CFG.get("delete_on_sync")`.  When enabled it calls
`super().delete()`, fetches the Site row of `self.uuid` from the ORM (the
fetched row is the `site` parameter here), logs a warning under
`job.debug`, and appends the row to `objects_to_delete["site"]`; when the
setting is false or absent it does none of these.  The hook returns
`self`, so the model returns the (possibly updated) adapter state. -/
def Building_delete (cfg : PluginCfg) (debug : Bool) (st : DelHookState)
    (uuid : Nat) (site : NbObject) (name : String) : DelHookState :=
  if cfg.delete_on_sync then
    let st1 := { st with superDeleted := st.superDeleted ++ [uuid] }
    let st2 :=
      if debug then
        { st1 with logs := st1.logs ++ ["Site " ++ name ++ " will be deleted."] }
      else st1
    { st2 with objects_to_delete := fun g =>
        if g = Grouping.site then st2.objects_to_delete Grouping.site ++ [site]
        else st2.objects_to_delete g }
  else st

/-- `Device.delete` (dcim.py lines 823-836): the same
`PLUGIN_CFG.get("delete_on_sync")` gate as `Building.delete`, appending the
fetched Device row to `objects_to_delete["device"]`. -/
def Device_delete (cfg : PluginCfg) (debug : Bool) (st : DelHookState)
    (uuid : Nat) (dev : NbObject) (name : String) : DelHookState :=
  if cfg.delete_on_sync then
    let st1 := { st with superDeleted := st.superDeleted ++ [uuid] }
    let st2 :=
      if debug then
        { st1 with logs := st1.logs ++ ["Device " ++ name ++ " will be deleted."] }
      else st1
    { st2 with objects_to_delete := fun g =>
        if g = Grouping.device then st2.objects_to_delete Grouping.device ++ [dev]
        else st2.objects_to_delete g }
  else st

/- ============================================================ -/
/- Lemmas: the deferred-deletion sweep                          -/
/- ============================================================ -/

theorem tryDelete_queues (s : SweepState) (g : Grouping) (o : NbObject) :
    (tryDelete s g o).queues = s.queues := by
  unfold tryDelete
  split <;> rfl

theorem tryDelete_attempts (s : SweepState) (g : Grouping) (o : NbObject) :
    (tryDelete s g o).attempts = s.attempts ++ [(g, o)] := by
  unfold tryDelete
  split <;> rfl

theorem tryDelete_logs (s : SweepState) (g : Grouping) (o : NbObject) :
    (tryDelete s g o).logs = s.logs ++ (if o.isProtected then [(g, o)] else []) := by
  unfold tryDelete
  split <;> simp_all

theorem drainGroup_queues (g : Grouping) (l : List NbObject) (s : SweepState) :
    (drainGroup g l s).queues = s.queues := by
  induction l generalizing s with
  | nil => rfl
  | cons o rest ih =>
      simp only [drainGroup]
      rw [ih, tryDelete_queues]

theorem drainGroup_attempts (g : Grouping) (l : List NbObject) (s : SweepState) :
    (drainGroup g l s).attempts = s.attempts ++ l.map (fun o => (g, o)) := by
  induction l generalizing s with
  | nil => simp [drainGroup]
  | cons o rest ih =>
      simp only [drainGroup, List.map_cons]
      rw [ih, tryDelete_attempts]
      simp

theorem drainGroup_logs (g : Grouping) (l : List NbObject) (s : SweepState) :
    (drainGroup g l s).logs
      = s.logs ++ (l.filter (fun o => o.isProtected)).map (fun o => (g, o)) := by
  induction l generalizing s with
  | nil => simp [drainGroup]
  | cons o rest ih =>
      simp only [drainGroup]
      rw [ih, tryDelete_logs]
      cases hp : o.isProtected <;> simp [List.filter_cons, hp]

theorem syncCompleteLoop_attempts (gs : List Grouping) (s : SweepState) (h : gs.Nodup) :
    (syncCompleteLoop gs s).attempts
      = s.attempts ++ gs.flatMap (fun g => (s.queues g).map (fun o => (g, o))) := by
  induction gs generalizing s with
  | nil => simp [syncCompleteLoop]
  | cons g rest ih =>
      simp only [syncCompleteLoop]
      rw [ih _ (List.Nodup.of_cons h)]
      have hq : ∀ g2 ∈ rest,
          ((if g2 = g then ([] : List NbObject) else (drainGroup g (s.queues g) s).queues g2)).map
              (fun o => (g2, o))
            = (s.queues g2).map (fun o => (g2, o)) := by
        intro g2 hg2
        have hne : g2 ≠ g := by
          intro hEq
          exact (List.nodup_cons.mp h).1 (hEq ▸ hg2)
        rw [if_neg hne, drainGroup_queues]
      simp only [drainGroup_attempts]
      rw [List.flatMap_congr hq]
      simp [List.flatMap_cons]

theorem syncCompleteLoop_logs (gs : List Grouping) (s : SweepState) (h : gs.Nodup) :
    (syncCompleteLoop gs s).logs
      = s.logs ++ gs.flatMap
          (fun g => ((s.queues g).filter (fun o => o.isProtected)).map (fun o => (g, o))) := by
  induction gs generalizing s with
  | nil => simp [syncCompleteLoop]
  | cons g rest ih =>
      simp only [syncCompleteLoop]
      rw [ih _ (List.Nodup.of_cons h)]
      have hq : ∀ g2 ∈ rest,
          (((if g2 = g then ([] : List NbObject) else (drainGroup g (s.queues g) s).queues g2)).filter
              (fun o => o.isProtected)).map (fun o => (g2, o))
            = ((s.queues g2).filter (fun o => o.isProtected)).map (fun o => (g2, o)) := by
        intro g2 hg2
        have hne : g2 ≠ g := by
          intro hEq
          exact (List.nodup_cons.mp h).1 (hEq ▸ hg2)
        rw [if_neg hne, drainGroup_queues]
      simp only [drainGroup_logs]
      rw [List.flatMap_congr hq]
      simp [List.flatMap_cons]

theorem syncCompleteLoop_queues_nil (gs : List Grouping) (s : SweepState) (g : Grouping)
    (h : s.queues g = []) : (syncCompleteLoop gs s).queues g = [] := by
  induction gs generalizing s with
  | nil => exact h
  | cons g2 rest ih =>
      simp only [syncCompleteLoop]
      apply ih
      by_cases hg : g = g2
      · simp [hg]
      · simp [hg, drainGroup_queues, h]

theorem syncCompleteLoop_queues_mem (gs : List Grouping) (s : SweepState) (g : Grouping)
    (h : g ∈ gs) : (syncCompleteLoop gs s).queues g = [] := by
  induction gs generalizing s with
  | nil => cases h
  | cons g2 rest ih =>
      simp only [syncCompleteLoop]
      rcases List.mem_cons.mp h with hEq | hMem
      · apply syncCompleteLoop_queues_nil
        simp [hEq]
      · exact ih _ hMem

theorem pairwise_rank_flatMap (gs : List Grouping) (q : Grouping → List NbObject)
    (h : gs.Pairwise (fun a b => groupRank a < groupRank b)) :
    List.Pairwise (fun x y : Grouping × NbObject => groupRank x.1 ≤ groupRank y.1)
      (gs.flatMap (fun g => (q g).map (fun o => (g, o)))) := by
  induction gs with
  | nil => simp
  | cons g rest ih =>
      simp only [List.flatMap_cons]
      rw [List.pairwise_append]
      refine ⟨?_, ih (List.Pairwise.of_cons h), ?_⟩
      · have : ∀ (l : List NbObject),
            List.Pairwise (fun x y : Grouping × NbObject => groupRank x.1 ≤ groupRank y.1)
              (l.map (fun o => (g, o))) := by
          intro l
          induction l with
          | nil => simp
          | cons o rest2 ih2 =>
              simp only [List.map_cons]
              constructor
              · intro y hy
                rcases List.mem_map.mp hy with ⟨o2, _, rfl⟩
                exact le_refl _
              · exact ih2
        exact this _
      · intro x hx y hy
        rcases List.mem_map.mp hx with ⟨o1, _, rfl⟩
        rcases List.mem_flatMap.mp hy with ⟨g2, hg2, hy2⟩
        rcases List.mem_map.mp hy2 with ⟨o2, _, rfl⟩
        have hlt : groupRank g < groupRank g2 := (List.pairwise_cons.mp h).1 g2 hg2
        exact le_of_lt hlt

theorem rank_before (l : List (Grouping × NbObject))
    (hp : List.Pairwise (fun x y : Grouping × NbObject => groupRank x.1 ≤ groupRank y.1) l)
    (ga gb : Grouping) (hab : groupRank ga < groupRank gb) :
    ∀ i j (hi : i < l.length) (hj : j < l.length),
      (l.get ⟨i, hi⟩).1 = ga → (l.get ⟨j, hj⟩).1 = gb → i < j := by
  intro i j hi hj ha hb
  by_contra hle
  push_neg at hle
  rcases Nat.lt_or_ge j i with hji | hij
  · have := List.pairwise_iff_get.mp hp ⟨j, hj⟩ ⟨i, hi⟩ hji
    rw [ha, hb] at this
    omega
  · have hEq : i = j := by omega
    subst hEq
    rw [ha] at hb
    rw [hb] at hab
    omega

/-- C1: at the end of a sync run, `sync_complete` drains the
deferred-deletion lists in the fixed grouping order ipaddr, subnet, vrf,
vlan, circuit, provider, cluster, port, device, device_type, manufacturer,
rack, site — the trace of `.delete()` calls is exactly the queues
concatenated in that order — so every deferred Device deletion is executed
before any deferred Rack deletion, and every deferred Rack deletion before
any deferred Site deletion. -/
theorem C1_sync_complete_drain_order (s : SweepState) (h : s.attempts = []) :
    (sync_complete s).attempts
        = deletionOrder.flatMap (fun g => (s.queues g).map (fun o => (g, o)))
      ∧ (∀ i j (hi : i < (sync_complete s).attempts.length)
            (hj : j < (sync_complete s).attempts.length),
          ((sync_complete s).attempts.get ⟨i, hi⟩).1 = Grouping.device →
          ((sync_complete s).attempts.get ⟨j, hj⟩).1 = Grouping.rack → i < j)
      ∧ (∀ i j (hi : i < (sync_complete s).attempts.length)
            (hj : j < (sync_complete s).attempts.length),
          ((sync_complete s).attempts.get ⟨i, hi⟩).1 = Grouping.rack →
          ((sync_complete s).attempts.get ⟨j, hj⟩).1 = Grouping.site → i < j) := by
  have hnd : deletionOrder.Nodup := by decide
  have hpw : deletionOrder.Pairwise (fun a b => groupRank a < groupRank b) := by decide
  have hat : (sync_complete s).attempts
      = deletionOrder.flatMap (fun g => (s.queues g).map (fun o => (g, o))) := by
    rw [sync_complete, syncCompleteLoop_attempts _ _ hnd, h]
    simp
  have hp2 : List.Pairwise (fun x y : Grouping × NbObject => groupRank x.1 ≤ groupRank y.1)
      (sync_complete s).attempts := by
    rw [hat]
    exact pairwise_rank_flatMap _ _ hpw
  exact ⟨hat, rank_before _ hp2 _ _ (by decide), rank_before _ hp2 _ _ (by decide)⟩

/-- Witness for C1 at a concrete adapter state with one queued Device, one
queued Rack and one queued Site deletion. -/
theorem C1_sync_complete_drain_order_witness :
    (sync_complete
        { queues := fun g =>
            match g with
            | .device => [⟨1, false⟩]
            | .rack => [⟨2, false⟩]
            | .site => [⟨3, true⟩]
            | _ => [],
          store := [], attempts := [], logs := [] }).attempts
      = deletionOrder.flatMap
          (fun g =>
            ((match g with
              | Grouping.device => [(⟨1, false⟩ : NbObject)]
              | Grouping.rack => [⟨2, false⟩]
              | Grouping.site => [⟨3, true⟩]
              | _ => []) : List NbObject).map (fun o => (g, o))) :=
  (C1_sync_complete_drain_order _ rfl).1

/-- C6: each deletion in the sweep is individually wrapped — a protected
object is logged and the sweep continues: the trace of attempted
`.delete()` calls covers every queued object of every grouping no matter
which objects are protected, and the protected ones are exactly the
logged ones. -/
theorem C6_protected_delete_continues (s : SweepState) (h : s.attempts = [])
    (h2 : s.logs = []) :
    (sync_complete s).attempts
        = deletionOrder.flatMap (fun g => (s.queues g).map (fun o => (g, o)))
      ∧ (sync_complete s).logs
        = deletionOrder.flatMap
            (fun g => ((s.queues g).filter (fun o => o.isProtected)).map (fun o => (g, o))) := by
  have hnd : deletionOrder.Nodup := by decide
  constructor
  · rw [sync_complete, syncCompleteLoop_attempts _ _ hnd, h]
    simp
  · rw [sync_complete, syncCompleteLoop_logs _ _ hnd, h2]
    simp

/-- Witness for C6 at a concrete state with a protected Device between two
deletable objects. -/
theorem C6_protected_delete_continues_witness :
    (sync_complete
        { queues := fun g =>
            match g with
            | .device => [⟨1, true⟩, ⟨2, false⟩]
            | .rack => [⟨3, false⟩]
            | _ => [],
          store := [], attempts := [], logs := [] }).attempts
      = deletionOrder.flatMap
          (fun g =>
            ((match g with
              | Grouping.device => [(⟨1, true⟩ : NbObject), ⟨2, false⟩]
              | Grouping.rack => [⟨3, false⟩]
              | _ => []) : List NbObject).map (fun o => (g, o))) :=
  (C6_protected_delete_continues _ rfl rfl).1

/-- C10: after `sync_complete` returns, every grouping list of
`_objects_to_delete` is empty, regardless of which deletions were refused
as protected — refused objects are dropped from the queue, not retained. -/
theorem C10_queues_emptied (s : SweepState) (g : Grouping) :
    (sync_complete s).queues g = [] := by
  apply syncCompleteLoop_queues_mem
  cases g <;> decide

/- ============================================================ -/
/- Lemmas: sorting machinery and C2                             -/
/- ============================================================ -/

theorem insBy_perm (le : α → α → Bool) (x : α) (l : List α) :
    (insBy le x l).Perm (x :: l) := by
  induction l with
  | nil => exact List.Perm.refl _
  | cons y ys ih =>
      unfold insBy
      split
      · exact List.Perm.refl _
      · exact (List.Perm.cons y ih).trans (List.Perm.swap x y ys)

theorem sortBy_perm (le : α → α → Bool) (l : List α) : (sortBy le l).Perm l := by
  induction l with
  | nil => exact List.Perm.refl _
  | cons x xs ih =>
      unfold sortBy
      exact (insBy_perm le x (sortBy le xs)).trans (List.Perm.cons x ih)

theorem map_insBy (f : α → β) (le : β → β → Bool) (x : α) (l : List α) :
    (insBy (fun a b => le (f a) (f b)) x l).map f = insBy le (f x) (l.map f) := by
  induction l with
  | nil => rfl
  | cons y ys ih =>
      unfold insBy
      by_cases hc : le (f x) (f y) = true
      · simp [hc]
      · simp only [List.map_cons]
        rw [if_neg hc, if_neg hc]
        simp [ih]

theorem map_sortBy (f : α → β) (le : β → β → Bool) (l : List α) :
    (sortBy (fun a b => le (f a) (f b)) l).map f = sortBy le (l.map f) := by
  induction l with
  | nil => rfl
  | cons x xs ih =>
      simp only [sortBy, List.map_cons]
      rw [map_insBy, ih]

theorem insBy_pairwise (le : α → α → Bool)
    (htot : ∀ a b, le a b = true ∨ le b a = true)
    (htrans : ∀ a b c, le a b = true → le b c = true → le a c = true)
    (x : α) (l : List α) (h : l.Pairwise (fun a b => le a b = true)) :
    (insBy le x l).Pairwise (fun a b => le a b = true) := by
  induction l with
  | nil => simp [insBy]
  | cons y ys ih =>
      unfold insBy
      by_cases hc : le x y = true
      · rw [if_pos hc]
        constructor
        · intro z hz
          rcases List.mem_cons.mp hz with rfl | hz2
          · exact hc
          · exact htrans _ _ _ hc ((List.pairwise_cons.mp h).1 z hz2)
        · exact h
      · rw [if_neg hc]
        constructor
        · intro z hz
          have hz3 := (insBy_perm le x ys).mem_iff.mp hz
          rcases List.mem_cons.mp hz3 with hzx | hz4
          · rw [hzx]
            rcases htot x y with hxy | hyx
            · exact absurd hxy hc
            · exact hyx
          · exact (List.pairwise_cons.mp h).1 z hz4
        · exact ih (List.Pairwise.of_cons h)

theorem sortBy_pairwise (le : α → α → Bool)
    (htot : ∀ a b, le a b = true ∨ le b a = true)
    (htrans : ∀ a b c, le a b = true → le b c = true → le a c = true)
    (l : List α) : (sortBy le l).Pairwise (fun a b => le a b = true) := by
  induction l with
  | nil => simp [sortBy]
  | cons x xs ih =>
      unfold sortBy
      exact insBy_pairwise le htot htrans x _ ih

theorem charListLe_total (a b : List Char) : charListLe a b = true ∨ charListLe b a = true := by
  induction a generalizing b with
  | nil => left; rfl
  | cons x xs ih =>
      cases b with
      | nil => right; rfl
      | cons y ys =>
          unfold charListLe
          rcases lt_trichotomy x y with hlt | hEq | hgt
          · left
            simp [hlt]
          · subst hEq
            simp only [lt_irrefl, if_false]
            exact ih ys
          · right
            simp [hgt]

theorem charListLe_trans (a b c : List Char) (h1 : charListLe a b = true)
    (h2 : charListLe b c = true) : charListLe a c = true := by
  induction a generalizing b c with
  | nil => rfl
  | cons x xs ih =>
      cases b with
      | nil => simp [charListLe] at h1
      | cons y ys =>
          cases c with
          | nil => simp [charListLe] at h2
          | cons z zs =>
              unfold charListLe at h1 h2 ⊢
              rcases lt_trichotomy x y with hxy | hxy | hxy
              · rcases lt_trichotomy y z with hyz | hyz | hyz
                · simp [lt_trans hxy hyz]
                · subst hyz
                  simp [hxy]
                · simp only [hyz, lt_asymm hyz, if_true, if_false] at h2
                  cases h2
              · subst hxy
                rcases lt_trichotomy x z with hxz | hxz | hxz
                · simp [hxz]
                · subst hxz
                  simp only [lt_irrefl, if_false] at h1 h2 ⊢
                  exact ih ys zs h1 h2
                · simp only [hxz, lt_asymm hxz, if_true, if_false] at h2
                  cases h2
              · simp only [hxy, lt_asymm hxy, if_true, if_false] at h1
                cases h1

theorem charListLe_antisymm (a b : List Char) (h1 : charListLe a b = true)
    (h2 : charListLe b a = true) : a = b := by
  induction a generalizing b with
  | nil =>
      cases b with
      | nil => rfl
      | cons y ys => simp [charListLe] at h2
  | cons x xs ih =>
      cases b with
      | nil => simp [charListLe] at h1
      | cons y ys =>
          unfold charListLe at h1 h2
          rcases lt_trichotomy x y with hxy | hxy | hxy
          · simp only [hxy, lt_asymm hxy, if_true, if_false] at h2
            cases h2
          · subst hxy
            simp only [lt_irrefl, if_false] at h1 h2
            rw [ih ys h1 h2]
          · simp only [hxy, lt_asymm hxy, if_true, if_false] at h1
            cases h1

theorem strLeB_total (a b : String) : strLeB a b = true ∨ strLeB b a = true :=
  charListLe_total a.data b.data

theorem strLeB_trans (a b c : String) (h1 : strLeB a b = true) (h2 : strLeB b c = true) :
    strLeB a c = true :=
  charListLe_trans a.data b.data c.data h1 h2

theorem strLeB_antisymm (a b : String) (h1 : strLeB a b = true) (h2 : strLeB b a = true) :
    a = b := by
  cases a with
  | mk da =>
      cases b with
      | mk db =>
          have := charListLe_antisymm da db h1 h2
          rw [this]

theorem alookup_of_mem {α : Type} {l : List (String × α)} (hnd : (l.map Prod.fst).Nodup)
    {k : String} {v : α} (hm : (k, v) ∈ l) : alookup k l = some v := by
  induction l with
  | nil => cases hm
  | cons p rest ih =>
      have hnd2 : (p.1 :: rest.map Prod.fst).Nodup := by simpa using hnd
      rcases List.nodup_cons.mp hnd2 with ⟨hnotin, hndrest⟩
      rcases List.mem_cons.mp hm with hEq | hm2
      · rw [← hEq]
        simp [alookup]
      · unfold alookup
        by_cases hk : k = p.1
        · exfalso
          have hkeys : k ∈ rest.map Prod.fst :=
            List.mem_map.mpr ⟨(k, v), hm2, rfl⟩
          rw [hk] at hkeys
          exact hnotin hkeys
        · rcases p with ⟨k2, v2⟩
          rw [if_neg hk]
          exact ih hndrest hm2

theorem filterMap_alookup (children : List (String × DiffChild))
    (hnd : (children.map Prod.fst).Nodup) :
    ∀ ps : List (String × DiffChild), (∀ p ∈ ps, p ∈ children) →
      (ps.map Prod.fst).filterMap (fun n => alookup n children) = ps.map Prod.snd := by
  intro ps
  induction ps with
  | nil => intro _; rfl
  | cons p rest ih =>
      intro hsub
      have hp : p ∈ children := hsub p (List.mem_cons_self p rest)
      have hl : alookup p.1 children = some p.2 :=
        alookup_of_mem hnd (by rcases p with ⟨a, b⟩; exact hp)
      simp only [List.map_cons, List.filterMap_cons, hl]
      rw [ih (fun q hq => hsub q (List.mem_cons_of_mem p hq))]

theorem actionKey_partition (l : List (String × DiffChild)) :
    (l.filter (fun p => actionKey p.2 == "delete")
      ++ l.filter (fun p => actionKey p.2 == "create")
      ++ l.filter (fun p => actionKey p.2 == "update")
      ++ l.filter (fun p => actionKey p.2 == "skip")).Perm l := by
  induction l with
  | nil => simp
  | cons x xs ih =>
      rcases hact : x.2.action with _ | a
      · have hk : actionKey x.2 = "skip" := by simp [actionKey, hact]
        simp only [List.filter_cons, hk]
        rw [if_neg (by decide), if_neg (by decide), if_neg (by decide), if_pos (by decide)]
        exact List.perm_middle.trans (List.Perm.cons x ih)
      · cases a with
        | create =>
            have hk : actionKey x.2 = "create" := by simp [actionKey, hact]
            simp only [List.filter_cons, hk]
            rw [if_neg (by decide), if_pos (by decide), if_neg (by decide), if_neg (by decide)]
            exact ((List.perm_middle.append_right _).append_right _).trans (List.Perm.cons x ih)
        | update =>
            have hk : actionKey x.2 = "update" := by simp [actionKey, hact]
            simp only [List.filter_cons, hk]
            rw [if_neg (by decide), if_neg (by decide), if_pos (by decide), if_neg (by decide)]
            exact (List.perm_middle.append_right _).trans (List.Perm.cons x ih)
        | delete =>
            have hk : actionKey x.2 = "delete" := by simp [actionKey, hact]
            simp only [List.filter_cons, hk]
            rw [if_pos (by decide), if_neg (by decide), if_neg (by decide), if_neg (by decide)]
            exact List.Perm.cons x ih

/-- C2: `order_children_device` yields exactly the delete-action children
first, then the create-action, then the update-action, then the
skip-action children, each group alphabetical by name; the output is a
permutation of the whole child set. -/
theorem C2_order_children_device (children : List (String × DiffChild))
    (h : (children.map Prod.fst).Nodup) :
    order_children_device children
        = (pairsWithActionSorted children "delete").map Prod.snd
          ++ (pairsWithActionSorted children "create").map Prod.snd
          ++ (pairsWithActionSorted children "update").map Prod.snd
          ++ (pairsWithActionSorted children "skip").map Prod.snd
      ∧ (∀ k, (pairsWithActionSorted children k).Pairwise
          (fun a b : String × DiffChild => strLeB a.1 b.1 = true))
      ∧ (∀ k p, p ∈ pairsWithActionSorted children k → actionKey p.2 = k)
      ∧ (order_children_device children).Perm (children.map Prod.snd) := by
  have hseg : ∀ k, sortBy strLeB (namesWithAction children k)
      = (pairsWithActionSorted children k).map Prod.fst := by
    intro k
    unfold namesWithAction pairsWithActionSorted
    exact (map_sortBy Prod.fst strLeB _).symm
  have hmem : ∀ k p, p ∈ pairsWithActionSorted children k →
      p ∈ children ∧ actionKey p.2 = k := by
    intro k p hp
    have hp2 := (sortBy_perm _ _).mem_iff.mp hp
    have hf := List.mem_filter.mp hp2
    exact ⟨hf.1, by simpa using hf.2⟩
  have hlookup : ∀ k,
      ((pairsWithActionSorted children k).map Prod.fst).filterMap (fun n => alookup n children)
        = (pairsWithActionSorted children k).map Prod.snd := by
    intro k
    exact filterMap_alookup children h _ (fun p hp => (hmem k p hp).1)
  have hmain : order_children_device children
      = (pairsWithActionSorted children "delete").map Prod.snd
        ++ (pairsWithActionSorted children "create").map Prod.snd
        ++ (pairsWithActionSorted children "update").map Prod.snd
        ++ (pairsWithActionSorted children "skip").map Prod.snd := by
    unfold order_children_device
    rw [hseg, hseg, hseg, hseg]
    simp only [List.filterMap_append]
    rw [hlookup, hlookup, hlookup, hlookup]
  refine ⟨hmain, ?_, fun k p hp => (hmem k p hp).2, ?_⟩
  · intro k
    exact sortBy_pairwise (fun a b : String × DiffChild => strLeB a.1 b.1)
      (fun a b => strLeB_total a.1 b.1)
      (fun a b c h1 h2 => strLeB_trans a.1 b.1 c.1 h1 h2) _
  · rw [hmain]
    have hP : ∀ k, ((pairsWithActionSorted children k).map Prod.snd).Perm
        ((children.filter (fun p => actionKey p.2 == k)).map Prod.snd) := by
      intro k
      exact (sortBy_perm _ _).map Prod.snd
    have hcat :
        ((pairsWithActionSorted children "delete").map Prod.snd
          ++ (pairsWithActionSorted children "create").map Prod.snd
          ++ (pairsWithActionSorted children "update").map Prod.snd
          ++ (pairsWithActionSorted children "skip").map Prod.snd).Perm
        ((children.filter (fun p => actionKey p.2 == "delete")).map Prod.snd
          ++ (children.filter (fun p => actionKey p.2 == "create")).map Prod.snd
          ++ (children.filter (fun p => actionKey p.2 == "update")).map Prod.snd
          ++ (children.filter (fun p => actionKey p.2 == "skip")).map Prod.snd) :=
      List.Perm.append (List.Perm.append (List.Perm.append (hP "delete") (hP "create"))
        (hP "update")) (hP "skip")
    refine hcat.trans ?_
    have := (actionKey_partition children).map Prod.snd
    simpa [List.map_append] using this

/-- Witness for C2 at a concrete three-child dict covering delete, create
and skip actions. -/
theorem C2_order_children_device_witness :
    order_children_device
        [("b", ⟨some DiffAction.create, 1⟩), ("a", ⟨some DiffAction.delete, 2⟩),
          ("c", ⟨none, 3⟩)]
      = (pairsWithActionSorted
            [("b", ⟨some DiffAction.create, 1⟩), ("a", ⟨some DiffAction.delete, 2⟩),
              ("c", ⟨none, 3⟩)] "delete").map Prod.snd
        ++ (pairsWithActionSorted
            [("b", ⟨some DiffAction.create, 1⟩), ("a", ⟨some DiffAction.delete, 2⟩),
              ("c", ⟨none, 3⟩)] "create").map Prod.snd
        ++ (pairsWithActionSorted
            [("b", ⟨some DiffAction.create, 1⟩), ("a", ⟨some DiffAction.delete, 2⟩),
              ("c", ⟨none, 3⟩)] "update").map Prod.snd
        ++ (pairsWithActionSorted
            [("b", ⟨some DiffAction.create, 1⟩), ("a", ⟨some DiffAction.delete, 2⟩),
              ("c", ⟨none, 3⟩)] "skip").map Prod.snd :=
  (C2_order_children_device _ (by decide)).1

/- ============================================================ -/
/- Lemmas: tag normalization and C3                             -/
/- ============================================================ -/

theorem get_tag_strings_perm (t : List String) : (get_tag_strings t).Perm t := by
  unfold get_tag_strings
  split
  · exact sortBy_perm _ _
  · exact List.Perm.refl _

theorem get_tag_strings_sorted (t : List String) :
    (get_tag_strings t).Pairwise (fun a b => strLeB a b = true) := by
  unfold get_tag_strings
  split
  · exact sortBy_pairwise strLeB strLeB_total strLeB_trans t
  · rename_i hlen
    match t with
    | [] => simp
    | [a] => simp
    | a :: b :: rest => simp at hlen

theorem get_tag_strings_eq_of_perm (t1 t2 : List String) (h : t1.Perm t2) :
    get_tag_strings t1 = get_tag_strings t2 := by
  haveI : IsAntisymm String (fun a b => strLeB a b = true) :=
    ⟨fun a b h1 h2 => strLeB_antisymm a b h1 h2⟩
  exact List.eq_of_perm_of_sorted
    (((get_tag_strings_perm t1).trans h).trans (get_tag_strings_perm t2).symm)
    (get_tag_strings_sorted t1) (get_tag_strings_sorted t2)

theorem load_building_tags_some (t : List String) :
    load_building_tags (some t) = get_tag_strings t := by
  unfold load_building_tags get_tag_strings
  cases t <;> simp

/-- C3: two Building entities with equal identity and attributes except
that their raw tag lists are reorderings of each other diff to skip (both
loaders normalize tags to sorted order — `get_tag_strings` on the Nautobot
side, the in-place sort of `load_buildings` on the Device42 side); tag
lists differing in membership diff to update with `changed_attrs` exactly
`["tags"]`. -/
theorem C3_tag_diff_minimality (b : BuildingEnt) (t1 t2 : List String) :
    (t1.Perm t2 →
      buildingDiff { b with tags := get_tag_strings t1 }
        { b with tags := load_building_tags (some t2) } = DiffOutcome.skip)
    ∧ (¬ t1.Perm t2 →
      buildingDiff { b with tags := get_tag_strings t1 }
        { b with tags := load_building_tags (some t2) } = DiffOutcome.update ["tags"]) := by
  rw [load_building_tags_some]
  constructor
  · intro hperm
    rw [get_tag_strings_eq_of_perm t1 t2 hperm]
    simp [buildingDiff, buildingAttrNames, buildingAttrEq]
  · intro hne
    have hneq : get_tag_strings t1 ≠ get_tag_strings t2 := by
      intro hEq
      apply hne
      exact ((get_tag_strings_perm t1).symm.trans (hEq ▸ (get_tag_strings_perm t2)))
    have hbeq : (get_tag_strings t1 == get_tag_strings t2) = false :=
      beq_eq_false_iff_ne.mpr hneq
    simp [buildingDiff, buildingAttrNames, buildingAttrEq, hbeq]

/-- Witness for C3: a reordered two-tag list diffs to skip; a tag list
with different membership diffs to update on exactly the tags attribute. -/
theorem C3_tag_diff_minimality_witness :
    (buildingDiff
        { name := "DFW1", address := "123 Main", latitude := 0, longitude := 0,
          contact_name := "", contact_phone := "",
          tags := get_tag_strings ["b", "a"], custom_fields := [] }
        { name := "DFW1", address := "123 Main", latitude := 0, longitude := 0,
          contact_name := "", contact_phone := "",
          tags := load_building_tags (some ["a", "b"]), custom_fields := [] }
      = DiffOutcome.skip)
    ∧ (buildingDiff
        { name := "DFW1", address := "123 Main", latitude := 0, longitude := 0,
          contact_name := "", contact_phone := "",
          tags := get_tag_strings ["b", "a"], custom_fields := [] }
        { name := "DFW1", address := "123 Main", latitude := 0, longitude := 0,
          contact_name := "", contact_phone := "",
          tags := load_building_tags (some ["a", "c"]), custom_fields := [] }
      = DiffOutcome.update ["tags"]) :=
  ⟨(C3_tag_diff_minimality ⟨"DFW1", "123 Main", 0, 0, "", "", [], []⟩
      ["b", "a"] ["a", "b"]).1 (by decide),
    (C3_tag_diff_minimality ⟨"DFW1", "123 Main", 0, 0, "", "", [], []⟩
      ["b", "a"] ["a", "c"]).2 (by decide)⟩

/- ============================================================ -/
/- Lemmas: partial update and idempotence (C4)                  -/
/- ============================================================ -/

theorem tagAdd_mem (l : List String) (t x : String) (h : x ∈ l) : x ∈ tagAdd l t := by
  unfold tagAdd
  split
  · exact h
  · exact List.mem_append_left _ h

theorem tagAdd_self (l : List String) (t : String) : t ∈ tagAdd l t := by
  unfold tagAdd
  split
  · assumption
  · exact List.mem_append_right _ (List.mem_singleton.mpr rfl)

theorem foldl_tagAdd_mono (ts : List String) (l : List String) (x : String) (h : x ∈ l) :
    x ∈ ts.foldl tagAdd l := by
  induction ts generalizing l with
  | nil => exact h
  | cons t rest ih => exact ih _ (tagAdd_mem l t x h)

theorem foldl_tagAdd_mem (ts : List String) (l : List String) (t : String) (h : t ∈ ts) :
    t ∈ ts.foldl tagAdd l := by
  induction ts generalizing l with
  | nil => cases h
  | cons t2 rest ih =>
      rcases List.mem_cons.mp h with hEq | hm
      · rw [hEq]
        exact foldl_tagAdd_mono rest _ t2 (tagAdd_self l t2)
      · exact ih _ hm

theorem foldl_tagAdd_of_subset (ts : List String) (l : List String) (h : ∀ t ∈ ts, t ∈ l) :
    ts.foldl tagAdd l = l := by
  induction ts with
  | nil => rfl
  | cons t rest ih =>
      have ht : t ∈ l := h t (List.mem_cons_self t rest)
      have : tagAdd l t = l := by
        unfold tagAdd
        rw [if_pos ht]
      simp only [List.foldl_cons, this]
      exact ih (fun t2 h2 => h t2 (List.mem_cons_of_mem t h2))

theorem addTags_idem (l ts : List String) : addTags (addTags l ts) ts = addTags l ts := by
  unfold addTags
  exact foldl_tagAdd_of_subset _ _ (fun t ht => foldl_tagAdd_mem _ _ t ht)

theorem cfLast_cons (c : CField) (rest : List CField) (k : String) :
    cfLast (c :: rest) k
      = (match cfLast rest k with
          | some v => some v
          | none => if slugifyM c.key = k then some c.value else none) := rfl

theorem applyCFs_k (cfs : List CField) : ∀ (m : String → Option String) (k : String),
    applyCFs m cfs k = (match cfLast cfs k with | some v => some v | none => m k) := by
  induction cfs with
  | nil => intro m k; rfl
  | cons c rest ih =>
      intro m k
      have hstep : applyCFs m (c :: rest) = applyCFs (cfStore m (slugifyM c.key) c.value) rest := rfl
      rw [hstep, ih, cfLast_cons]
      cases hlast : cfLast rest k with
      | some v => simp
      | none =>
          simp only []
          by_cases hk : slugifyM c.key = k
          · simp [cfStore, hk]
          · have hk2 : ¬(k = slugifyM c.key) := fun hEq => hk hEq.symm
            simp [cfStore, hk, hk2]

theorem applyCFs_idem (m : String → Option String) (cfs : List CField) :
    applyCFs (applyCFs m cfs) cfs = applyCFs m cfs := by
  funext k
  rw [applyCFs_k, applyCFs_k]
  cases h : cfLast cfs k with
  | some v => rfl
  | none => rfl

set_option maxHeartbeats 1000000 in
theorem Building_update_char (cfg : PluginCfg) (attrs : BuildingAttrsU) (s : SiteRec) :
    Building_update cfg attrs s
      = match (if truthyL attrs.tags then get_facility cfg (attrs.tags.getD [])
               else Except.ok none) with
        | .error e => .error e
        | .ok fac =>
            .ok { physical_address :=
                    if truthyS attrs.address then attrs.address.getD "" else s.physical_address,
                  latitude :=
                    if truthyQ attrs.latitude then round6 (attrs.latitude.getD 0) else s.latitude,
                  longitude :=
                    if truthyQ attrs.longitude then round6 (attrs.longitude.getD 0) else s.longitude,
                  contact_name :=
                    if truthyS attrs.contact_name then attrs.contact_name.getD ""
                    else s.contact_name,
                  contact_phone :=
                    if truthyS attrs.contact_phone then attrs.contact_phone.getD ""
                    else s.contact_phone,
                  facility :=
                    if truthyL attrs.tags then
                      (match fac with
                        | some f => if f != "" then some (strUpper f) else s.facility
                        | none => s.facility)
                    else s.facility,
                  tags :=
                    if truthyL attrs.tags then addTags s.tags (attrs.tags.getD []) else s.tags,
                  custom_field_data :=
                    if truthyL attrs.custom_fields then
                      applyCFs s.custom_field_data (attrs.custom_fields.getD [])
                    else s.custom_field_data } := by
  unfold Building_update updTagsFacility
  cases htags : truthyL attrs.tags
  · simp only [htags, Bool.false_eq_true, if_false, pure_bind]
    unfold updAddress updLatitude updLongitude updContactName updContactPhone updCFData
    split_ifs <;> rfl
  · simp only [htags, eq_self_iff_true, if_true]
    cases hfac : get_facility cfg (attrs.tags.getD []) with
    | error e => rfl
    | ok fac =>
        cases fac with
        | none =>
            show Except.bind (Except.ok _) _ = _
            rw [Except.bind]
            simp only [pure]
            unfold updAddress updLatitude updLongitude updContactName updContactPhone updCFData
            split_ifs <;> rfl
        | some f =>
            show Except.bind (Except.ok _) _ = _
            rw [Except.bind]
            by_cases hf : (f != "") = true
            · simp only [hf, eq_self_iff_true, if_true, pure]
              unfold updAddress updLatitude updLongitude updContactName updContactPhone updCFData
              split_ifs <;> rfl
            · simp only [hf, if_false, pure]
              unfold updAddress updLatitude updLongitude updContactName updContactPhone updCFData
              split_ifs <;> rfl

theorem Rack_update_char (attrs : RackAttrsU) (r : RackRec) :
    Rack_update attrs r
      = { u_height := if truthyZ attrs.height then attrs.height.getD 0 else r.u_height,
          desc_units :=
            if truthyS attrs.numbering_start_from_bottom then
              !(is_truthy (attrs.numbering_start_from_bottom.getD ""))
            else r.desc_units,
          tags := if truthyL attrs.tags then addTags r.tags (attrs.tags.getD []) else r.tags,
          custom_field_data :=
            if truthyL attrs.custom_fields then
              applyCFs r.custom_field_data (attrs.custom_fields.getD [])
            else r.custom_field_data } := by
  unfold Rack_update
  split_ifs <;> rfl

/-- C4: `Building.update` and `Rack.update` are partial updates — a
backing-store field whose attribute is absent from `attrs` is left
unchanged — and idempotent: applying the same `attrs` twice yields the
same backing state as applying it once. -/
theorem C4_partial_update_idempotent :
    (∀ (cfg : PluginCfg) (attrs : BuildingAttrsU) (s r : SiteRec),
      Building_update cfg attrs s = .ok r →
        ((attrs.address = none → r.physical_address = s.physical_address)
          ∧ (attrs.latitude = none → r.latitude = s.latitude)
          ∧ (attrs.longitude = none → r.longitude = s.longitude)
          ∧ (attrs.contact_name = none → r.contact_name = s.contact_name)
          ∧ (attrs.contact_phone = none → r.contact_phone = s.contact_phone)
          ∧ (attrs.tags = none → r.tags = s.tags ∧ r.facility = s.facility)
          ∧ (attrs.custom_fields = none → r.custom_field_data = s.custom_field_data)
          ∧ Building_update cfg attrs r = .ok r))
    ∧ (∀ (attrs : RackAttrsU) (r0 : RackRec),
        (attrs.height = none → (Rack_update attrs r0).u_height = r0.u_height)
          ∧ (attrs.numbering_start_from_bottom = none →
              (Rack_update attrs r0).desc_units = r0.desc_units)
          ∧ (attrs.tags = none → (Rack_update attrs r0).tags = r0.tags)
          ∧ (attrs.custom_fields = none →
              (Rack_update attrs r0).custom_field_data = r0.custom_field_data)
          ∧ Rack_update attrs (Rack_update attrs r0) = Rack_update attrs r0) := by
  constructor
  · intro cfg attrs s r h
    rw [Building_update_char] at h
    cases hfc : (if truthyL attrs.tags then get_facility cfg (attrs.tags.getD [])
        else Except.ok none) with
    | error e => rw [hfc] at h; cases h
    | ok fac =>
        rw [hfc] at h
        have hr := (Except.ok.injEq _ _).mp h
        subst hr
        refine ⟨?_, ?_, ?_, ?_, ?_, ?_, ?_, ?_⟩
        · intro ha; simp [ha, truthyS]
        · intro ha; simp [ha, truthyQ]
        · intro ha; simp [ha, truthyQ]
        · intro ha; simp [ha, truthyS]
        · intro ha; simp [ha, truthyS]
        · intro ha; simp [ha, truthyL]
        · intro ha; simp [ha, truthyL]
        · rw [Building_update_char, hfc]
          refine congrArg Except.ok ?_
          simp only [SiteRec.mk.injEq]
          refine ⟨?_, ?_, ?_, ?_, ?_, ?_, ?_, ?_⟩
          · by_cases hc : truthyS attrs.address = true <;> simp [hc]
          · by_cases hc : truthyQ attrs.latitude = true <;> simp [hc]
          · by_cases hc : truthyQ attrs.longitude = true <;> simp [hc]
          · by_cases hc : truthyS attrs.contact_name = true <;> simp [hc]
          · by_cases hc : truthyS attrs.contact_phone = true <;> simp [hc]
          · cases htags : truthyL attrs.tags
            · simp
            · cases fac with
              | none => simp [htags]
              | some f =>
                  by_cases hf : (f != "") = true <;> simp [htags, hf]
          · cases htags : truthyL attrs.tags <;> simp [htags, addTags_idem]
          · by_cases hc : truthyL attrs.custom_fields = true <;> simp [hc, applyCFs_idem]
  · intro attrs r0
    rw [Rack_update_char, Rack_update_char]
    refine ⟨?_, ?_, ?_, ?_, ?_⟩
    · intro ha; simp [ha, truthyZ]
    · intro ha; simp [ha, truthyS]
    · intro ha; simp [ha, truthyL]
    · intro ha; simp [ha, truthyL]
    · simp only [RackRec.mk.injEq]
      refine ⟨?_, ?_, ?_, ?_⟩
      · by_cases hc : truthyZ attrs.height = true <;> simp [hc]
      · by_cases hc : truthyS attrs.numbering_start_from_bottom = true <;> simp [hc]
      · by_cases hc : truthyL attrs.tags = true <;> simp [hc, addTags_idem]
      · by_cases hc : truthyL attrs.custom_fields = true <;> simp [hc, applyCFs_idem]

/-- Witness for C4: a concrete `Building.update` call (address and tags
present, everything else absent) whose result is a fixed point of applying
the same `attrs` again. -/
theorem C4_partial_update_idempotent_witness :
    Building_update
        { facility_prepend := some "sitecode-", role_prepend := some "nautobot-",
          delete_on_sync := false, default_device_role := "Unknown", lifecycle_mgmt := false }
        { address := some "200 Main", latitude := none, longitude := none,
          contact_name := none, contact_phone := none,
          tags := some ["sitecode-DFW"], custom_fields := none }
        { physical_address := "200 Main", latitude := 0, longitude := 0,
          contact_name := "", contact_phone := "", facility := some "DFW",
          tags := ["sitecode-DFW"], custom_field_data := fun _ => none }
      = .ok
        { physical_address := "200 Main", latitude := 0, longitude := 0,
          contact_name := "", contact_phone := "", facility := some "DFW",
          tags := ["sitecode-DFW"], custom_field_data := fun _ => none } :=
  (C4_partial_update_idempotent.1
      { facility_prepend := some "sitecode-", role_prepend := some "nautobot-",
        delete_on_sync := false, default_device_role := "Unknown", lifecycle_mgmt := false }
      { address := some "200 Main", latitude := none, longitude := none,
        contact_name := none, contact_phone := none,
        tags := some ["sitecode-DFW"], custom_fields := none }
      { physical_address := "", latitude := 0, longitude := 0,
        contact_name := "", contact_phone := "", facility := none,
        tags := [], custom_field_data := fun _ => none }
      { physical_address := "200 Main", latitude := 0, longitude := 0,
        contact_name := "", contact_phone := "", facility := some "DFW",
        tags := ["sitecode-DFW"], custom_field_data := fun _ => none }
      (by rfl)).2.2.2.2.2.2.2

/- ============================================================ -/
/- Lemmas: Device.create failure paths (C5)                     -/
/- ============================================================ -/

theorem ok_bind {ε α β : Type} (x : α) (f : α → Except ε β) :
    ((Except.ok x : Except ε α) >>= f) = f x := rfl

theorem verify_device_role_frames (db : NbDB) (n : String) :
    (verify_device_role db n).1.device_types = db.device_types
      ∧ (verify_device_role db n).1.racks = db.racks
      ∧ (verify_device_role db n).1.sites = db.sites
      ∧ (verify_device_role db n).1.devices = db.devices := by
  unfold verify_device_role
  split <;> exact ⟨rfl, rfl, rfl, rfl⟩

theorem Device_get_site_congr (debug : Bool) (db1 db2 : NbDB) (attrs : DevAttrs)
    (hr : db1.racks = db2.racks) (hs : db1.sites = db2.sites) :
    Device_get_site debug db1 attrs = Device_get_site debug db2 attrs := by
  unfold Device_get_site getSiteByBuilding rackFind siteFindBySlug
  rw [hr, hs]

/-- Amended C5: when creation is impossible (the DeviceType is unknown, or
the Site cannot be determined), `Device.create` returns `None` without
raising — even when `validated_save` would have raised — and creates no
Device row; the `None` is treated as a skip by the executor; a log message
is emitted whenever debug logging is on (the missing-Site branch logs
unconditionally).  It may however have enqueued a new DeviceRole for
creation before detecting the failure, and without debug the
missing-DeviceType branch logs nothing — the original claim fails on both
points (see the counterexample). -/
theorem C5_create_none_is_skip (cfg : PluginCfg) (debug : Bool) (db0 : NbDB) (ids : DevIds)
    (attrs : DevAttrs) (s1 s2 : Bool)
    (hrole : cfg.role_prepend.isSome = true ∨ attrs.tags = none)
    (hfail : db0.device_types.contains attrs.hardware = false
        ∨ (Device_get_site debug db0 attrs).1 = none) :
    ∃ out, Device_create cfg debug db0 ids attrs s1 s2 = .ok out
      ∧ out.result = none
      ∧ execCreateNode out.result = NodeOutcome.skipped
      ∧ out.db.devices = db0.devices
      ∧ (debug = true → out.logs ≠ []) := by
  have hrn : ∃ rn, (if truthyL attrs.tags then find_device_role_from_tags cfg (attrs.tags.getD [])
      else Except.ok cfg.default_device_role) = Except.ok rn := by
    cases htags : truthyL attrs.tags
    · exact ⟨cfg.default_device_role, by simp⟩
    · rcases hrole with hp | hT
      · cases hpre : cfg.role_prepend with
        | none => rw [hpre] at hp; cases hp
        | some pre =>
            simp only [if_true, eq_self_iff_true]
            unfold find_device_role_from_tags
            rw [hpre]
            show ∃ rn, (match facilityScan pre (attrs.tags.getD []) with
                | some role => Except.ok role
                | none => Except.ok cfg.default_device_role) = Except.ok rn
            cases hscan : facilityScan pre (attrs.tags.getD []) with
            | none => exact ⟨cfg.default_device_role, rfl⟩
            | some role => exact ⟨role, rfl⟩
      · rw [hT] at htags
        cases htags
  obtain ⟨rn, hrn⟩ := hrn
  unfold Device_create
  rw [hrn, ok_bind]
  rcases hv : verify_device_role db0 rn with ⟨db1, rs⟩
  have hframes := verify_device_role_frames db0 rn
  rw [hv] at hframes
  rcases hfail with hdt | hsite
  · refine ⟨{ result := none, db := db1,
              logs := (if debug then ["debug: creating device"] else [])
                ++ (if debug then ["debug: unable to find matching DeviceType"] else []) },
      ?_, rfl, rfl, hframes.2.2.2, ?_⟩
    · simp only [hv]
      rw [if_pos (by rw [hframes.1, hdt]; rfl)]
    · intro hdbg
      simp [hdbg]
  · have hdbsite : (Device_get_site debug db1 attrs).1 = none := by
      rw [Device_get_site_congr debug db1 db0 attrs hframes.2.1 hframes.2.2.1]
      exact hsite
    by_cases hdt : db1.device_types.contains attrs.hardware = true
    · refine ⟨{ result := none, db := db1,
                logs := (if debug then ["debug: creating device"] else [])
                  ++ (Device_get_site debug db1 attrs).2
                  ++ ["debug: unable to determine Site"] },
        ?_, rfl, rfl, hframes.2.2.2, ?_⟩
      · simp only [hv]
        rw [if_neg (by rw [hdt]; simp)]
        rw [show Device_get_site debug db1 attrs
            = (none, (Device_get_site debug db1 attrs).2) from by rw [← hdbsite]]
      · intro hdbg
        simp
    · simp only [Bool.not_eq_true] at hdt
      refine ⟨{ result := none, db := db1,
                logs := (if debug then ["debug: creating device"] else [])
                  ++ (if debug then ["debug: unable to find matching DeviceType"] else []) },
        ?_, rfl, rfl, hframes.2.2.2, ?_⟩
      · simp only [hv]
        rw [if_pos (by rw [hdt]; rfl)]
      · intro hdbg
        simp [hdbg]

/-- Witness for the amended C5 at a concrete input: unknown DeviceType,
debug on, no tags. -/
theorem C5_create_none_is_skip_witness :
    ∃ out, Device_create
        { facility_prepend := some "sitecode-", role_prepend := some "nautobot-",
          delete_on_sync := false, default_device_role := "Unknown", lifecycle_mgmt := false }
        true
        { sites := [], racks := [], device_types := [], devices := [], virtual_chassis := [],
          deviceroles := [], platforms := [], objects_to_create_roles := [],
          objects_to_create_platforms := [] }
        { name := "sw1" }
        { in_service := true, hardware := "WS-C3850", building := none, room := none,
          rack := none, rack_position := none, rack_orientation := none, os := none,
          os_version := none, serial_no := none, tags := none,
          cluster_host := none, master_device := false, custom_fields := none }
        false false
      = .ok out
      ∧ out.result = none
      ∧ execCreateNode out.result = NodeOutcome.skipped
      ∧ out.db.devices
        = ({ sites := [], racks := [], device_types := [], devices := [], virtual_chassis := [],
             deviceroles := [], platforms := [], objects_to_create_roles := [],
             objects_to_create_platforms := [] } : NbDB).devices
      ∧ (true = true → out.logs ≠ []) :=
  C5_create_none_is_skip
    { facility_prepend := some "sitecode-", role_prepend := some "nautobot-",
      delete_on_sync := false, default_device_role := "Unknown", lifecycle_mgmt := false }
    true
    { sites := [], racks := [], device_types := [], devices := [], virtual_chassis := [],
      deviceroles := [], platforms := [], objects_to_create_roles := [],
      objects_to_create_platforms := [] }
    { name := "sw1" }
    { in_service := true, hardware := "WS-C3850", building := none, room := none,
      rack := none, rack_position := none, rack_orientation := none, os := none,
      os_version := none, serial_no := none, tags := none,
      cluster_host := none, master_device := false, custom_fields := none }
    false false
    (Or.inl (by decide))
    (Or.inl (by decide))

/-- Counterexample to C5 as stated: with debug logging off and an unknown
DeviceType, `Device.create` returns `None` but emits no log message at
all, and a new DeviceRole derived from the tags has already been enqueued
in `objects_to_create["deviceroles"]` for creation in the backing store —
so the hook neither logs nor avoids creating backing-store objects. -/
theorem C5_counterexample :
    Device_create
        { facility_prepend := some "sitecode-", role_prepend := some "nautobot-",
          delete_on_sync := false, default_device_role := "Unknown", lifecycle_mgmt := false }
        false
        { sites := [], racks := [], device_types := [], devices := [], virtual_chassis := [],
          deviceroles := [], platforms := [], objects_to_create_roles := [],
          objects_to_create_platforms := [] }
        { name := "sw1" }
        { in_service := true, hardware := "WS-C3850", building := none, room := none,
          rack := none, rack_position := none, rack_orientation := none, os := none,
          os_version := none, serial_no := none, tags := some ["nautobot-core-router"],
          cluster_host := none, master_device := false, custom_fields := none }
        false false
      = .ok { result := none,
              db := { sites := [], racks := [], device_types := [], devices := [],
                      virtual_chassis := [], deviceroles := ["core-router"],
                      platforms := [], objects_to_create_roles := ["core-router"],
                      objects_to_create_platforms := [] },
              logs := [] } := by
  rfl

/- ============================================================ -/
/- Lemmas: merge_offset_dicts and the pagination loop (C7, C8)  -/
/- ============================================================ -/

theorem merge_lookup_lists (page : JDict) :
    ∀ (orig out : JDict) (k : String) (a b : List Nat),
      alookup k orig = some (.vlist a) → alookup k page = some (.vlist b) →
      merge_offset_dicts orig page = .ok out → alookup k out = some (.vlist (a ++ b)) := by
  induction page with
  | nil => intro orig out k a b _ hp _; cases hp
  | cons e rest ih =>
      rcases e with ⟨k2, v⟩
      intro orig out k a b ho hp hm
      unfold merge_offset_dicts at hm
      by_cases hk : k = k2
      · subst hk
        rw [alookup, if_pos rfl] at hp
        have hv : v = .vlist b := by injection hp
        subst hv
        simp only [ho, mergeVal, Except.bind] at hm
        cases hrest : merge_offset_dicts orig rest with
        | error e2 =>
            simp only [hrest] at hm
            exact Except.noConfusion hm
        | ok tail =>
            simp only [hrest] at hm
            have hout : (k, JVal.vlist (a ++ b)) :: tail = out := by injection hm
            rw [← hout, alookup, if_pos rfl]
      · rw [alookup, if_neg hk] at hp
        cases hlk2 : alookup k2 orig with
        | none =>
            simp only [hlk2] at hm
            exact ih orig out k a b ho hp hm
        | some ov =>
            simp only [hlk2, Except.bind] at hm
            cases hmv : mergeVal ov v with
            | error e2 =>
                simp only [hmv] at hm
                exact Except.noConfusion hm
            | ok mv =>
                simp only [hmv] at hm
                cases hrest : merge_offset_dicts orig rest with
                | error e2 =>
                    simp only [hrest] at hm
                    exact Except.noConfusion hm
                | ok tail =>
                    simp only [hrest] at hm
                    have hout : (k2, mv) :: tail = out := by injection hm
                    rw [← hout, alookup, if_neg hk]
                    exact ih orig tail k a b ho hp hrest

theorem merge_lookup_absent_page (page : JDict) :
    ∀ (orig out : JDict) (k : String),
      alookup k page = none → merge_offset_dicts orig page = .ok out →
      alookup k out = none := by
  induction page with
  | nil =>
      intro orig out k _ hm
      unfold merge_offset_dicts at hm
      have hout : ([] : JDict) = out := by injection hm
      rw [← hout]
      rfl
  | cons e rest ih =>
      rcases e with ⟨k2, v⟩
      intro orig out k hp hm
      unfold merge_offset_dicts at hm
      rw [alookup] at hp
      by_cases hk : k = k2
      · rw [if_pos hk] at hp; cases hp
      · rw [if_neg hk] at hp
        cases hlk2 : alookup k2 orig with
        | none =>
            simp only [hlk2] at hm
            exact ih orig out k hp hm
        | some ov =>
            simp only [hlk2, Except.bind] at hm
            cases hmv : mergeVal ov v with
            | error e2 =>
                simp only [hmv] at hm
                exact Except.noConfusion hm
            | ok mv =>
                simp only [hmv] at hm
                cases hrest : merge_offset_dicts orig rest with
                | error e2 =>
                    simp only [hrest] at hm
                    exact Except.noConfusion hm
                | ok tail =>
                    simp only [hrest] at hm
                    have hout : (k2, mv) :: tail = out := by injection hm
                    rw [← hout, alookup, if_neg hk]
                    exact ih orig tail k hp hrest

theorem merge_lookup_absent_orig (page : JDict) :
    ∀ (orig out : JDict) (k : String),
      alookup k orig = none → merge_offset_dicts orig page = .ok out →
      alookup k out = none := by
  induction page with
  | nil =>
      intro orig out k _ hm
      unfold merge_offset_dicts at hm
      have hout : ([] : JDict) = out := by injection hm
      rw [← hout]
      rfl
  | cons e rest ih =>
      rcases e with ⟨k2, v⟩
      intro orig out k ho hm
      unfold merge_offset_dicts at hm
      cases hlk2 : alookup k2 orig with
      | none =>
          simp only [hlk2] at hm
          exact ih orig out k ho hm
      | some ov =>
          have hk : k ≠ k2 := by
            intro hEq
            rw [hEq, hlk2] at ho
            cases ho
          simp only [hlk2, Except.bind] at hm
          cases hmv : mergeVal ov v with
          | error e2 =>
              simp only [hmv] at hm
              exact Except.noConfusion hm
          | ok mv =>
              simp only [hmv] at hm
              cases hrest : merge_offset_dicts orig rest with
              | error e2 =>
                  simp only [hrest] at hm
                  exact Except.noConfusion hm
              | ok tail =>
                  simp only [hrest] at hm
                  have hout : (k2, mv) :: tail = out := by injection hm
                  rw [← hout, alookup, if_neg hk]
                  exact ih orig tail k ho hrest

theorem api_loopF_iters (fetch : Int → Except Unit JDict) :
    ∀ (fuel : Nat) (d : JDict), (api_loopF fetch fuel d).iters ≤ fuel + 1 := by
  intro fuel
  induction fuel with
  | zero =>
      intro d
      unfold api_loopF
      cases hc : loopCond d with
      | error e => simp
      | ok b =>
          cases b
          · simp
          · cases hf : fetch ((scalarOf d "offset").getD 0 + (scalarOf d "limit").getD 0) with
            | error e => simp [hf]
            | ok page =>
                cases hm : merge_offset_dicts d page with
                | error e => simp [hf, hm]
                | ok d2 => simp [hf, hm]
  | succ fuel2 ih =>
      intro d
      unfold api_loopF
      cases hc : loopCond d with
      | error e => simp
      | ok b =>
          cases b
          · simp
          · cases hf : fetch ((scalarOf d "offset").getD 0 + (scalarOf d "limit").getD 0) with
            | error e => simp [hf]
            | ok page =>
                cases hm : merge_offset_dicts d page with
                | error e => simp [hf, hm]
                | ok d2 =>
                    have hiter := ih d2
                    simp [hf, hm]
                    omega

theorem api_loopF_runaway (fetch : Int → Except Unit JDict) :
    ∀ (fuel : Nat) (d : JDict), (api_loopF fetch fuel d).runaway = true →
      (api_loopF fetch fuel d).iters = fuel + 1 := by
  intro fuel
  induction fuel with
  | zero =>
      intro d
      unfold api_loopF
      cases hc : loopCond d with
      | error e => simp
      | ok b =>
          cases b
          · simp
          · cases hf : fetch ((scalarOf d "offset").getD 0 + (scalarOf d "limit").getD 0) with
            | error e => simp [hf]
            | ok page =>
                cases hm : merge_offset_dicts d page with
                | error e => simp [hf, hm]
                | ok d2 => simp [hf, hm]
  | succ fuel2 ih =>
      intro d
      unfold api_loopF
      cases hc : loopCond d with
      | error e => simp
      | ok b =>
          cases b
          · simp
          · cases hf : fetch ((scalarOf d "offset").getD 0 + (scalarOf d "limit").getD 0) with
            | error e => simp [hf]
            | ok page =>
                cases hm : merge_offset_dicts d page with
                | error e => simp [hf, hm]
                | ok d2 =>
                    simp only [hf, hm]
                    intro hrw
                    have := ih d2 hrw
                    omega

theorem api_loopF_absent (fetch : Int → Except Unit JDict) (k : String) :
    ∀ (fuel : Nat) (d : JDict), alookup k d = none →
      ∀ dout, (api_loopF fetch fuel d).out = .ok dout → alookup k dout = none := by
  intro fuel
  induction fuel with
  | zero =>
      intro d hd dout hout
      unfold api_loopF at hout
      cases hc : loopCond d with
      | error e =>
          simp only [hc] at hout
          exact Except.noConfusion hout
      | ok b =>
          cases b
          · simp only [hc, Except.ok.injEq] at hout
            rw [← hout]
            exact hd
          · simp only [hc] at hout
            cases hf : fetch ((scalarOf d "offset").getD 0 + (scalarOf d "limit").getD 0) with
            | error e =>
                simp only [hf] at hout
                exact Except.noConfusion hout
            | ok page =>
                simp only [hf] at hout
                cases hm : merge_offset_dicts d page with
                | error e =>
                    simp only [hm] at hout
                    exact Except.noConfusion hout
                | ok d2 =>
                    simp only [hm, Except.ok.injEq] at hout
                    rw [← hout]
                    exact merge_lookup_absent_orig page d d2 k hd hm
  | succ fuel2 ih =>
      intro d hd dout hout
      unfold api_loopF at hout
      cases hc : loopCond d with
      | error e =>
          simp only [hc] at hout
          exact Except.noConfusion hout
      | ok b =>
          cases b
          · simp only [hc, Except.ok.injEq] at hout
            rw [← hout]
            exact hd
          · simp only [hc] at hout
            cases hf : fetch ((scalarOf d "offset").getD 0 + (scalarOf d "limit").getD 0) with
            | error e =>
                simp only [hf] at hout
                exact Except.noConfusion hout
            | ok page =>
                simp only [hf] at hout
                cases hm : merge_offset_dicts d page with
                | error e =>
                    simp only [hm] at hout
                    exact Except.noConfusion hout
                | ok d2 =>
                    simp only [hm] at hout
                    exact ih d2 (merge_lookup_absent_orig page d d2 k hd hm) dout hout

theorem api_loopF_page_kills (fetch : Int → Except Unit JDict) (k : String) :
    ∀ (fuel : Nat) (d : JDict) (dout : JDict),
      (api_loopF fetch fuel d).out = .ok dout →
      (∃ p ∈ (api_loopF fetch fuel d).pages, alookup k p = none) →
      alookup k dout = none := by
  intro fuel
  induction fuel with
  | zero =>
      intro d dout hout hp
      unfold api_loopF at hout hp
      cases hc : loopCond d with
      | error e =>
          simp only [hc] at hout
          exact Except.noConfusion hout
      | ok b =>
          cases b
          · simp only [hc] at hp
            simp at hp
          · simp only [hc] at hout hp
            cases hf : fetch ((scalarOf d "offset").getD 0 + (scalarOf d "limit").getD 0) with
            | error e =>
                simp only [hf] at hout
                exact Except.noConfusion hout
            | ok page =>
                simp only [hf] at hout hp
                cases hm : merge_offset_dicts d page with
                | error e =>
                    simp only [hm] at hout
                    exact Except.noConfusion hout
                | ok d2 =>
                    simp only [hm, Except.ok.injEq] at hout
                    simp only [hm, List.mem_singleton] at hp
                    rcases hp with ⟨p, hpm, hpn⟩
                    rw [hpm] at hpn
                    rw [← hout]
                    exact merge_lookup_absent_page page d d2 k hpn hm
  | succ fuel2 ih =>
      intro d dout hout hp
      unfold api_loopF at hout hp
      cases hc : loopCond d with
      | error e =>
          simp only [hc] at hout
          exact Except.noConfusion hout
      | ok b =>
          cases b
          · simp only [hc] at hp
            simp at hp
          · simp only [hc] at hout hp
            cases hf : fetch ((scalarOf d "offset").getD 0 + (scalarOf d "limit").getD 0) with
            | error e =>
                simp only [hf] at hout
                exact Except.noConfusion hout
            | ok page =>
                simp only [hf] at hout hp
                cases hm : merge_offset_dicts d page with
                | error e =>
                    simp only [hm] at hout
                    exact Except.noConfusion hout
                | ok d2 =>
                    simp only [hm] at hout hp
                    rcases hp with ⟨p, hpm, hpn⟩
                    rcases List.mem_cons.mp hpm with hph | hpt
                    · rw [hph] at hpn
                      have hd2 := merge_lookup_absent_page page d d2 k hpn hm
                      exact api_loopF_absent fetch k fuel2 d2 hd2 dout hout
                    · exact ih d2 dout hout ⟨p, hpt, hpn⟩

theorem api_loopF_concat (fetch : Int → Except Unit JDict) (k : String) :
    ∀ (fuel : Nat) (d : JDict) (a : List Nat),
      alookup k d = some (.vlist a) →
      ∀ dout, (api_loopF fetch fuel d).out = .ok dout →
      (∀ p ∈ (api_loopF fetch fuel d).pages, ∃ b, alookup k p = some (.vlist b)) →
      alookup k dout
        = some (.vlist (a ++ (api_loopF fetch fuel d).pages.flatMap
            (fun p => vlOf (alookup k p)))) := by
  intro fuel
  induction fuel with
  | zero =>
      intro d a hd dout hout hpages
      unfold api_loopF at hout hpages ⊢
      cases hc : loopCond d with
      | error e =>
          simp only [hc] at hout
          exact Except.noConfusion hout
      | ok b =>
          cases b
          · simp only [hc, Except.ok.injEq] at hout
            simp only [hc]
            rw [← hout]
            simp [hd]
          · simp only [hc] at hout hpages ⊢
            cases hf : fetch ((scalarOf d "offset").getD 0 + (scalarOf d "limit").getD 0) with
            | error e =>
                simp only [hf] at hout
                exact Except.noConfusion hout
            | ok page =>
                simp only [hf] at hout hpages ⊢
                cases hm : merge_offset_dicts d page with
                | error e =>
                    simp only [hm] at hout
                    exact Except.noConfusion hout
                | ok d2 =>
                    simp only [hm, Except.ok.injEq] at hout
                    simp only [hm, List.mem_singleton] at hpages ⊢
                    rcases hpages page rfl with ⟨b, hb⟩
                    have hd2 := merge_lookup_lists page d d2 k a b hd hb hm
                    rw [← hout]
                    simp [hb, vlOf, hd2]
  | succ fuel2 ih =>
      intro d a hd dout hout hpages
      unfold api_loopF at hout hpages ⊢
      cases hc : loopCond d with
      | error e =>
          simp only [hc] at hout
          exact Except.noConfusion hout
      | ok b =>
          cases b
          · simp only [hc, Except.ok.injEq] at hout
            simp only [hc]
            rw [← hout]
            simp [hd]
          · simp only [hc] at hout hpages ⊢
            cases hf : fetch ((scalarOf d "offset").getD 0 + (scalarOf d "limit").getD 0) with
            | error e =>
                simp only [hf] at hout
                exact Except.noConfusion hout
            | ok page =>
                simp only [hf] at hout hpages ⊢
                cases hm : merge_offset_dicts d page with
                | error e =>
                    simp only [hm] at hout
                    exact Except.noConfusion hout
                | ok d2 =>
                    simp only [hm] at hout hpages ⊢
                    rcases hpages page (List.mem_cons_self _ _) with ⟨b, hb⟩
                    have hd2 := merge_lookup_lists page d d2 k a b hd hb hm
                    have hrest : ∀ p ∈ (api_loopF fetch fuel2 d2).pages,
                        ∃ b2, alookup k p = some (.vlist b2) := by
                      intro p hpm
                      exact hpages p (List.mem_cons_of_mem _ hpm)
                    have := ih d2 (a ++ b) hd2 dout hout hrest
                    rw [this]
                    simp [hb, vlOf, List.append_assoc]

theorem alookup_eraseKey (k k2 : String) (hne : k ≠ k2) :
    ∀ d : JDict, alookup k (eraseKey k2 d) = alookup k d := by
  intro d
  induction d with
  | nil => rfl
  | cons e rest ih =>
      rcases e with ⟨k3, v⟩
      unfold eraseKey
      by_cases h3 : k3 = k2
      · rw [if_pos h3, alookup, if_neg (by rw [h3]; exact hne)]
      · rw [if_neg h3]
        unfold alookup
        by_cases hk3 : k = k3
        · rw [if_pos hk3, if_pos hk3]
        · rw [if_neg hk3, if_neg hk3]
          exact ih

/-- Amended C7: `api_call` returns a merged record set in which every
list-valued field present in the first page and in every fetched page is
the concatenation of that field records across the pages in fetch order;
but a key of the first page response that is missing from some fetched
page is dropped by `merge_offset_dicts` (only keys present in all pages
survive); on a non-recoverable HTTP error the call signals failure rather
than silently returning partial data: the first request returns `False`,
a follow-up page request raises. -/
theorem C7_api_call_merge :
    (∀ (r0 : JDict) (fetch : Int → Except Unit JDict) (k : String) (a : List Nat) (d : JDict),
        k ≠ "offset" →
        alookup k r0 = some (.vlist a) →
        (api_call (some r0) fetch).res = .ok (some d) →
        (∀ p ∈ (api_call (some r0) fetch).pages, ∃ b, alookup k p = some (.vlist b)) →
        alookup k d = some (.vlist (a ++ (api_call (some r0) fetch).pages.flatMap
          (fun p => vlOf (alookup k p)))))
    ∧ (∀ (r0 : JDict) (fetch : Int → Except Unit JDict) (k : String) (d : JDict),
        k ≠ "offset" →
        (api_call (some r0) fetch).res = .ok (some d) →
        (∃ p ∈ (api_call (some r0) fetch).pages, alookup k p = none) →
        alookup k d = none)
    ∧ (∀ fetch : Int → Except Unit JDict, (api_call none fetch).res = .ok none)
    ∧ (∀ (r0 : JDict) (fetch : Int → Except Unit JDict),
        truthyJ (alookup "total_count" r0) = true →
        loopCond r0 = .ok true →
        fetch ((scalarOf r0 "offset").getD 0 + (scalarOf r0 "limit").getD 0) = .error () →
        (api_call (some r0) fetch).res = .error ()) := by
  refine ⟨?_, ?_, fun fetch => rfl, ?_⟩
  · intro r0 fetch k a d hk hr0 hres hpages
    unfold api_call api_loop at hres hpages ⊢
    cases htc : truthyJ (alookup "total_count" r0)
    · simp only [htc, Bool.false_eq_true, if_false, Except.ok.injEq, Option.some.injEq]
        at hres hpages ⊢
      rw [← hres]
      simp [hr0]
    · simp only [htc, eq_self_iff_true, if_true, Nat.sub_zero] at hres hpages ⊢
      cases ho : (api_loopF fetch 10000 r0).out with
      | error e =>
          simp only [ho] at hres
          exact Except.noConfusion hres
      | ok dL =>
          simp only [ho, Except.ok.injEq, Option.some.injEq] at hres hpages ⊢
          have halk := api_loopF_concat fetch k 10000 r0 a hr0 dL ho hpages
          rw [← hres]
          by_cases hgt : (api_loopF fetch 10000 r0).iters > 0
      
          · rw [if_pos hgt, alookup_eraseKey k "offset" hk]
            exact halk
          · rw [if_neg hgt]
            exact halk
  · intro r0 fetch k d hk hres hp
    unfold api_call api_loop at hres hp
    cases htc : truthyJ (alookup "total_count" r0)
    · simp only [htc, Bool.false_eq_true, if_false] at hp
      simp at hp
    · simp only [htc, eq_self_iff_true, if_true, Nat.sub_zero] at hres hp
      cases ho : (api_loopF fetch 10000 r0).out with
      | error e =>
          simp only [ho] at hres
          exact Except.noConfusion hres
      | ok dL =>
          simp only [ho, Except.ok.injEq, Option.some.injEq] at hres hp
          have halk := api_loopF_page_kills fetch k 10000 r0 dL ho hp
          rw [← hres]
          by_cases hgt : (api_loopF fetch 10000 r0).iters > 0
      
          · rw [if_pos hgt, alookup_eraseKey k "offset" hk]
            exact halk
          · rw [if_neg hgt]
            exact halk
  · intro r0 fetch htc hcond hfetch
    unfold api_call api_loop
    simp only [htc, eq_self_iff_true, if_true, Nat.sub_zero]
    have hloop : (api_loopF fetch 10000 r0).out = .error () := by
      unfold api_loopF
      simp only [hcond, hfetch]
    simp only [hloop]

/-- Counterexample to C7 as stated: a two-page response whose first page
carries a key (`extra`) absent from the second page; `api_call` merges the
record lists but the merged result has lost the `extra` key of the first
page. -/
theorem C7_counterexample :
    (api_call
        (some [("total_count", .vscalar 3), ("offset", .vscalar 0), ("limit", .vscalar 2),
          ("Devices", .vlist [1, 2]), ("extra", .vscalar 7)])
        (fun _ => .ok [("total_count", .vscalar 3), ("offset", .vscalar 2),
          ("limit", .vscalar 2), ("Devices", .vlist [3])])).res
      = .ok (some [("total_count", .vscalar 3), ("limit", .vscalar 2),
          ("Devices", .vlist [1, 2, 3])])
    ∧ alookup "extra"
        ([("total_count", .vscalar 3), ("offset", .vscalar 0), ("limit", .vscalar 2),
          ("Devices", .vlist [1, 2]), ("extra", .vscalar 7)] : JDict)
      = some (.vscalar 7)
    ∧ alookup "extra"
        ([("total_count", .vscalar 3), ("limit", .vscalar 2),
          ("Devices", .vlist [1, 2, 3])] : JDict)
      = none :=
  ⟨rfl, rfl, rfl⟩

/-- Witness for the amended C7: the `Devices` record list of the same
two-page exchange is the concatenation of both pages. -/
theorem C7_api_call_merge_witness :
    alookup "Devices"
        ([("total_count", .vscalar 3), ("limit", .vscalar 2),
          ("Devices", .vlist [1, 2, 3])] : JDict)
      = some (.vlist ([1, 2] ++ ((api_call
          (some [("total_count", .vscalar 3), ("offset", .vscalar 0), ("limit", .vscalar 2),
            ("Devices", .vlist [1, 2]), ("extra", .vscalar 7)])
          (fun _ => .ok [("total_count", .vscalar 3), ("offset", .vscalar 2),
            ("limit", .vscalar 2), ("Devices", .vlist [3])])).pages.flatMap
          (fun p => vlOf (alookup "Devices" p))))) :=
  C7_api_call_merge.1
    [("total_count", .vscalar 3), ("offset", .vscalar 0), ("limit", .vscalar 2),
      ("Devices", .vlist [1, 2]), ("extra", .vscalar 7)]
    (fun _ => .ok [("total_count", .vscalar 3), ("offset", .vscalar 2),
      ("limit", .vscalar 2), ("Devices", .vlist [3])])
    "Devices" [1, 2]
    [("total_count", .vscalar 3), ("limit", .vscalar 2), ("Devices", .vlist [1, 2, 3])]
    (by decide) rfl rfl
    (by
      intro p hp
      simp only [show (api_call
          (some [("total_count", JVal.vscalar 3), ("offset", .vscalar 0), ("limit", .vscalar 2),
            ("Devices", .vlist [1, 2]), ("extra", .vscalar 7)])
          (fun _ => .ok [("total_count", .vscalar 3), ("offset", .vscalar 2),
            ("limit", .vscalar 2), ("Devices", .vlist [3])])).pages
          = [[("total_count", .vscalar 3), ("offset", .vscalar 2),
              ("limit", .vscalar 2), ("Devices", .vlist [3])]] from rfl,
        List.mem_singleton] at hp
      rw [hp]
      exact ⟨[3], rfl⟩)

/-- C8: the pagination loop of `api_call` terminates with at most 10001
page requests for every response sequence, and at the 10000-counter frame
a successful fetch-and-merge iteration takes the runaway break — the
condition the source logs as a possible infinite loop — returning instead
of recursing. -/
theorem C8_pagination_bounded :
    (∀ (first : Option JDict) (fetch : Int → Except Unit JDict),
        (api_call first fetch).iters ≤ 10001)
    ∧ (∀ (fetch : Int → Except Unit JDict) (d page d2 : JDict),
        loopCond d = .ok true →
        fetch ((scalarOf d "offset").getD 0 + (scalarOf d "limit").getD 0) = .ok page →
        merge_offset_dicts d page = .ok d2 →
        api_loopF fetch 0 d = { out := .ok d2, iters := 1, pages := [page], runaway := true })
    ∧ (∀ (first : Option JDict) (fetch : Int → Except Unit JDict),
        (api_call first fetch).runaway = true → (api_call first fetch).iters = 10001) := by
  refine ⟨?_, ?_, ?_⟩
  · intro first fetch
    cases first with
    | none => simp [api_call]
    | some d0 =>
        unfold api_call api_loop
        cases htc : truthyJ (alookup "total_count" d0)
        · simp only [htc, Bool.false_eq_true, if_false]
          exact Nat.zero_le _
        · simp only [htc, eq_self_iff_true, if_true, Nat.sub_zero]
          have hb := api_loopF_iters fetch 10000 d0
          cases ho : (api_loopF fetch 10000 d0).out with
          | error e => simp only [ho]; omega
          | ok dL => simp only [ho]; omega
  · intro fetch d page d2 hc hf hm
    unfold api_loopF
    simp only [hc, hf, hm]
  · intro first fetch
    cases first with
    | none => simp [api_call]
    | some d0 =>
        unfold api_call api_loop
        cases htc : truthyJ (alookup "total_count" d0)
        · simp only [htc, Bool.false_eq_true, if_false]
          intro hrw
          exact absurd hrw (by simp)
        · simp only [htc, eq_self_iff_true, if_true, Nat.sub_zero]
          have hb := api_loopF_runaway fetch 10000 d0
          cases ho : (api_loopF fetch 10000 d0).out with
          | error e =>
              simp only [ho]
              intro hrw
              have := hb hrw
              omega
          | ok dL =>
              simp only [ho]
              intro hrw
              have := hb hrw
              omega

/-- Witness for C8: the cap-frame break at a concrete one-page state. -/
theorem C8_pagination_bounded_witness :
    api_loopF (fun _ => .ok [("offset", .vscalar 2)]) 0
        [("offset", .vscalar 0), ("limit", .vscalar 2), ("total_count", .vscalar 5)]
      = { out := .ok [("offset", .vscalar 2)], iters := 1,
          pages := [[("offset", .vscalar 2)]], runaway := true } :=
  C8_pagination_bounded.2.1 (fun _ => .ok [("offset", .vscalar 2)])
    [("offset", .vscalar 0), ("limit", .vscalar 2), ("total_count", .vscalar 5)]
    [("offset", .vscalar 2)] [("offset", .vscalar 2)]
    rfl rfl rfl


/-- C9: the DCIM delete hooks are gated on the `delete_on_sync` plugin
setting: with that setting false (or absent, which `PLUGIN_CFG.get`
reports as falsy), `Building.delete` and `Device.delete` perform no
backing-store deletion, enqueue nothing into the deferred-deletion lists,
emit no log, and return `self` with the adapter state unchanged. -/
theorem C9_delete_gated (cfg : PluginCfg) (debug : Bool) (st : DelHookState)
    (buuid duuid : Nat) (site dev : NbObject) (bname dname : String)
    (h : cfg.delete_on_sync = false) :
    Building_delete cfg debug st buuid site bname = st
    ∧ Device_delete cfg debug st duuid dev dname = st := by
  unfold Building_delete Device_delete
  rw [h]
  simp

/-- Witness for C9: the gate at a concrete disabled configuration. -/
theorem C9_delete_gated_witness :
    (⟨none, none, false, "r", false⟩ : PluginCfg).delete_on_sync = false
    ∧ Building_delete ⟨none, none, false, "r", false⟩ true
        ⟨fun _ => [], [], []⟩ 5 ⟨5, false⟩ "HQ" = ⟨fun _ => [], [], []⟩
    ∧ Device_delete ⟨none, none, false, "r", false⟩ true
        ⟨fun _ => [], [], []⟩ 7 ⟨7, true⟩ "sw1" = ⟨fun _ => [], [], []⟩ :=
  ⟨rfl,
    (C9_delete_gated ⟨none, none, false, "r", false⟩ true ⟨fun _ => [], [], []⟩
      5 7 ⟨5, false⟩ ⟨7, true⟩ "HQ" "sw1" rfl).1,
    (C9_delete_gated ⟨none, none, false, "r", false⟩ true ⟨fun _ => [], [], []⟩
      5 7 ⟨5, false⟩ ⟨7, true⟩ "HQ" "sw1" rfl).2⟩
